import Mathlib

/-!
# Sorted-set command module (`src/modules/sorted_set/commands.go`)

A shallow embedding of the command handlers of the sorted-set module.

* A command vector `cmd []string` is a `List String`.
* A handler returns `([]byte, error)`; here it returns `Except String String`
  (the error text or the reply bytes) paired with the host state after the call.
  A handler that can panic (an index out of range) returns a `Run`, which tells a
  return from a panic.
* The host (`utils.Server`) is a keyspace plus the trace of the state-changing
  host calls the handler made (locks, unlocks, creations, writes).
* `strings.ToLower`, `strings.ToUpper` and `strings.EqualFold` work rune by rune, with
  the simple case mappings and foldings of the Unicode Character Database.
* A `float64` score is an extended rational: the non-NaN doubles are a subset of
  the rationals with the two infinities, their order is the order used here, and
  finite arithmetic is taken without rounding.
-/

namespace sorted_set

/-! ## Go standard library -/

/-- A run of a Unicode case table, `(lo, hi, step, image)`: the code point `lo` maps to
`image`, and each of `lo + step`, `lo + 2 * step`, ..., up to `hi`, maps as far from
`image` as it is from `lo`. -/
abbrev CaseRange := Nat × Nat × Nat × Nat

/-- The simple lowercase mappings of the Unicode Character Database (14.0.0), the
data of Go `unicode.CaseRanges` for `LowerCase`. -/
def lowerRanges : List CaseRange :=
  [(0x41, 0x5A, 1, 0x61), (0xC0, 0xD6, 1, 0xE0), (0xD8, 0xDE, 1, 0xF8), (0x100, 0x12E, 2, 0x101),
   (0x130, 0x130, 1, 0x69), (0x132, 0x136, 2, 0x133), (0x139, 0x147, 2, 0x13A),
   (0x14A, 0x176, 2, 0x14B), (0x178, 0x178, 1, 0xFF), (0x179, 0x17D, 2, 0x17A),
   (0x181, 0x181, 1, 0x253), (0x182, 0x184, 2, 0x183), (0x186, 0x186, 1, 0x254),
   (0x187, 0x187, 1, 0x188), (0x189, 0x18A, 1, 0x256), (0x18B, 0x18B, 1, 0x18C),
   (0x18E, 0x18E, 1, 0x1DD), (0x18F, 0x18F, 1, 0x259), (0x190, 0x190, 1, 0x25B),
   (0x191, 0x191, 1, 0x192), (0x193, 0x193, 1, 0x260), (0x194, 0x194, 1, 0x263),
   (0x196, 0x196, 1, 0x269), (0x197, 0x197, 1, 0x268), (0x198, 0x198, 1, 0x199),
   (0x19C, 0x19C, 1, 0x26F), (0x19D, 0x19D, 1, 0x272), (0x19F, 0x19F, 1, 0x275),
   (0x1A0, 0x1A4, 2, 0x1A1), (0x1A6, 0x1A6, 1, 0x280), (0x1A7, 0x1A7, 1, 0x1A8),
   (0x1A9, 0x1A9, 1, 0x283), (0x1AC, 0x1AC, 1, 0x1AD), (0x1AE, 0x1AE, 1, 0x288),
   (0x1AF, 0x1AF, 1, 0x1B0), (0x1B1, 0x1B2, 1, 0x28A), (0x1B3, 0x1B5, 2, 0x1B4),
   (0x1B7, 0x1B7, 1, 0x292), (0x1B8, 0x1B8, 1, 0x1B9), (0x1BC, 0x1BC, 1, 0x1BD),
   (0x1C4, 0x1C4, 1, 0x1C6), (0x1C5, 0x1C5, 1, 0x1C6), (0x1C7, 0x1C7, 1, 0x1C9),
   (0x1C8, 0x1C8, 1, 0x1C9), (0x1CA, 0x1CA, 1, 0x1CC), (0x1CB, 0x1DB, 2, 0x1CC),
   (0x1DE, 0x1EE, 2, 0x1DF), (0x1F1, 0x1F1, 1, 0x1F3), (0x1F2, 0x1F4, 2, 0x1F3),
   (0x1F6, 0x1F6, 1, 0x195), (0x1F7, 0x1F7, 1, 0x1BF), (0x1F8, 0x21E, 2, 0x1F9),
   (0x220, 0x220, 1, 0x19E), (0x222, 0x232, 2, 0x223), (0x23A, 0x23A, 1, 0x2C65),
   (0x23B, 0x23B, 1, 0x23C), (0x23D, 0x23D, 1, 0x19A), (0x23E, 0x23E, 1, 0x2C66),
   (0x241, 0x241, 1, 0x242), (0x243, 0x243, 1, 0x180), (0x244, 0x244, 1, 0x289),
   (0x245, 0x245, 1, 0x28C), (0x246, 0x24E, 2, 0x247), (0x370, 0x372, 2, 0x371),
   (0x376, 0x376, 1, 0x377), (0x37F, 0x37F, 1, 0x3F3), (0x386, 0x386, 1, 0x3AC),
   (0x388, 0x38A, 1, 0x3AD), (0x38C, 0x38C, 1, 0x3CC), (0x38E, 0x38F, 1, 0x3CD),
   (0x391, 0x3A1, 1, 0x3B1), (0x3A3, 0x3AB, 1, 0x3C3), (0x3CF, 0x3CF, 1, 0x3D7),
   (0x3D8, 0x3EE, 2, 0x3D9), (0x3F4, 0x3F4, 1, 0x3B8), (0x3F7, 0x3F7, 1, 0x3F8),
   (0x3F9, 0x3F9, 1, 0x3F2), (0x3FA, 0x3FA, 1, 0x3FB), (0x3FD, 0x3FF, 1, 0x37B),
   (0x400, 0x40F, 1, 0x450), (0x410, 0x42F, 1, 0x430), (0x460, 0x480, 2, 0x461),
   (0x48A, 0x4BE, 2, 0x48B), (0x4C0, 0x4C0, 1, 0x4CF), (0x4C1, 0x4CD, 2, 0x4C2),
   (0x4D0, 0x52E, 2, 0x4D1), (0x531, 0x556, 1, 0x561), (0x10A0, 0x10C5, 1, 0x2D00),
   (0x10C7, 0x10C7, 1, 0x2D27), (0x10CD, 0x10CD, 1, 0x2D2D), (0x13A0, 0x13EF, 1, 0xAB70),
   (0x13F0, 0x13F5, 1, 0x13F8), (0x1C90, 0x1CBA, 1, 0x10D0), (0x1CBD, 0x1CBF, 1, 0x10FD),
   (0x1E00, 0x1E94, 2, 0x1E01), (0x1E9E, 0x1E9E, 1, 0xDF), (0x1EA0, 0x1EFE, 2, 0x1EA1),
   (0x1F08, 0x1F0F, 1, 0x1F00), (0x1F18, 0x1F1D, 1, 0x1F10), (0x1F28, 0x1F2F, 1, 0x1F20),
   (0x1F38, 0x1F3F, 1, 0x1F30), (0x1F48, 0x1F4D, 1, 0x1F40), (0x1F59, 0x1F5F, 2, 0x1F51),
   (0x1F68, 0x1F6F, 1, 0x1F60), (0x1F88, 0x1F8F, 1, 0x1F80), (0x1F98, 0x1F9F, 1, 0x1F90),
   (0x1FA8, 0x1FAF, 1, 0x1FA0), (0x1FB8, 0x1FB9, 1, 0x1FB0), (0x1FBA, 0x1FBB, 1, 0x1F70),
   (0x1FBC, 0x1FBC, 1, 0x1FB3), (0x1FC8, 0x1FCB, 1, 0x1F72), (0x1FCC, 0x1FCC, 1, 0x1FC3),
   (0x1FD8, 0x1FD9, 1, 0x1FD0), (0x1FDA, 0x1FDB, 1, 0x1F76), (0x1FE8, 0x1FE9, 1, 0x1FE0),
   (0x1FEA, 0x1FEB, 1, 0x1F7A), (0x1FEC, 0x1FEC, 1, 0x1FE5), (0x1FF8, 0x1FF9, 1, 0x1F78),
   (0x1FFA, 0x1FFB, 1, 0x1F7C), (0x1FFC, 0x1FFC, 1, 0x1FF3), (0x2126, 0x2126, 1, 0x3C9),
   (0x212A, 0x212A, 1, 0x6B), (0x212B, 0x212B, 1, 0xE5), (0x2132, 0x2132, 1, 0x214E),
   (0x2160, 0x216F, 1, 0x2170), (0x2183, 0x2183, 1, 0x2184), (0x24B6, 0x24CF, 1, 0x24D0),
   (0x2C00, 0x2C2F, 1, 0x2C30), (0x2C60, 0x2C60, 1, 0x2C61), (0x2C62, 0x2C62, 1, 0x26B),
   (0x2C63, 0x2C63, 1, 0x1D7D), (0x2C64, 0x2C64, 1, 0x27D), (0x2C67, 0x2C6B, 2, 0x2C68),
   (0x2C6D, 0x2C6D, 1, 0x251), (0x2C6E, 0x2C6E, 1, 0x271), (0x2C6F, 0x2C6F, 1, 0x250),
   (0x2C70, 0x2C70, 1, 0x252), (0x2C72, 0x2C72, 1, 0x2C73), (0x2C75, 0x2C75, 1, 0x2C76),
   (0x2C7E, 0x2C7F, 1, 0x23F), (0x2C80, 0x2CE2, 2, 0x2C81), (0x2CEB, 0x2CED, 2, 0x2CEC),
   (0x2CF2, 0x2CF2, 1, 0x2CF3), (0xA640, 0xA66C, 2, 0xA641), (0xA680, 0xA69A, 2, 0xA681),
   (0xA722, 0xA72E, 2, 0xA723), (0xA732, 0xA76E, 2, 0xA733), (0xA779, 0xA77B, 2, 0xA77A),
   (0xA77D, 0xA77D, 1, 0x1D79), (0xA77E, 0xA786, 2, 0xA77F), (0xA78B, 0xA78B, 1, 0xA78C),
   (0xA78D, 0xA78D, 1, 0x265), (0xA790, 0xA792, 2, 0xA791), (0xA796, 0xA7A8, 2, 0xA797),
   (0xA7AA, 0xA7AA, 1, 0x266), (0xA7AB, 0xA7AB, 1, 0x25C), (0xA7AC, 0xA7AC, 1, 0x261),
   (0xA7AD, 0xA7AD, 1, 0x26C), (0xA7AE, 0xA7AE, 1, 0x26A), (0xA7B0, 0xA7B0, 1, 0x29E),
   (0xA7B1, 0xA7B1, 1, 0x287), (0xA7B2, 0xA7B2, 1, 0x29D), (0xA7B3, 0xA7B3, 1, 0xAB53),
   (0xA7B4, 0xA7C2, 2, 0xA7B5), (0xA7C4, 0xA7C4, 1, 0xA794), (0xA7C5, 0xA7C5, 1, 0x282),
   (0xA7C6, 0xA7C6, 1, 0x1D8E), (0xA7C7, 0xA7C9, 2, 0xA7C8), (0xA7D0, 0xA7D0, 1, 0xA7D1),
   (0xA7D6, 0xA7D8, 2, 0xA7D7), (0xA7F5, 0xA7F5, 1, 0xA7F6), (0xFF21, 0xFF3A, 1, 0xFF41),
   (0x10400, 0x10427, 1, 0x10428), (0x104B0, 0x104D3, 1, 0x104D8), (0x10570, 0x10594, 2, 0x10597),
   (0x10571, 0x10579, 2, 0x10598), (0x1057D, 0x10589, 2, 0x105A4), (0x1058D, 0x10591, 2, 0x105B4),
   (0x10595, 0x10595, 1, 0x105BC), (0x10C80, 0x10CB2, 1, 0x10CC0), (0x118A0, 0x118BF, 1, 0x118C0),
   (0x16E40, 0x16E5F, 1, 0x16E60), (0x1E900, 0x1E921, 1, 0x1E922)]

/-- The simple uppercase mappings of the Unicode Character Database (14.0.0), the
data of Go `unicode.CaseRanges` for `UpperCase`. -/
def upperRanges : List CaseRange :=
  [(0x61, 0x7A, 1, 0x41), (0xB5, 0xB5, 1, 0x39C), (0xE0, 0xF6, 1, 0xC0), (0xF8, 0xFE, 1, 0xD8),
   (0xFF, 0xFF, 1, 0x178), (0x101, 0x12F, 2, 0x100), (0x131, 0x131, 1, 0x49),
   (0x133, 0x137, 2, 0x132), (0x13A, 0x148, 2, 0x139), (0x14B, 0x177, 2, 0x14A),
   (0x17A, 0x17E, 2, 0x179), (0x17F, 0x17F, 1, 0x53), (0x180, 0x180, 1, 0x243),
   (0x183, 0x185, 2, 0x182), (0x188, 0x188, 1, 0x187), (0x18C, 0x18C, 1, 0x18B),
   (0x192, 0x192, 1, 0x191), (0x195, 0x195, 1, 0x1F6), (0x199, 0x199, 1, 0x198),
   (0x19A, 0x19A, 1, 0x23D), (0x19E, 0x19E, 1, 0x220), (0x1A1, 0x1A5, 2, 0x1A0),
   (0x1A8, 0x1A8, 1, 0x1A7), (0x1AD, 0x1AD, 1, 0x1AC), (0x1B0, 0x1B0, 1, 0x1AF),
   (0x1B4, 0x1B6, 2, 0x1B3), (0x1B9, 0x1B9, 1, 0x1B8), (0x1BD, 0x1BD, 1, 0x1BC),
   (0x1BF, 0x1BF, 1, 0x1F7), (0x1C5, 0x1C5, 1, 0x1C4), (0x1C6, 0x1C6, 1, 0x1C4),
   (0x1C8, 0x1C8, 1, 0x1C7), (0x1C9, 0x1C9, 1, 0x1C7), (0x1CB, 0x1CB, 1, 0x1CA),
   (0x1CC, 0x1CC, 1, 0x1CA), (0x1CE, 0x1DC, 2, 0x1CD), (0x1DD, 0x1DD, 1, 0x18E),
   (0x1DF, 0x1EF, 2, 0x1DE), (0x1F2, 0x1F2, 1, 0x1F1), (0x1F3, 0x1F3, 1, 0x1F1),
   (0x1F5, 0x1F5, 1, 0x1F4), (0x1F9, 0x21F, 2, 0x1F8), (0x223, 0x233, 2, 0x222),
   (0x23C, 0x23C, 1, 0x23B), (0x23F, 0x240, 1, 0x2C7E), (0x242, 0x242, 1, 0x241),
   (0x247, 0x24F, 2, 0x246), (0x250, 0x250, 1, 0x2C6F), (0x251, 0x251, 1, 0x2C6D),
   (0x252, 0x252, 1, 0x2C70), (0x253, 0x253, 1, 0x181), (0x254, 0x254, 1, 0x186),
   (0x256, 0x257, 1, 0x189), (0x259, 0x259, 1, 0x18F), (0x25B, 0x25B, 1, 0x190),
   (0x25C, 0x25C, 1, 0xA7AB), (0x260, 0x260, 1, 0x193), (0x261, 0x261, 1, 0xA7AC),
   (0x263, 0x263, 1, 0x194), (0x265, 0x265, 1, 0xA78D), (0x266, 0x266, 1, 0xA7AA),
   (0x268, 0x268, 1, 0x197), (0x269, 0x269, 1, 0x196), (0x26A, 0x26A, 1, 0xA7AE),
   (0x26B, 0x26B, 1, 0x2C62), (0x26C, 0x26C, 1, 0xA7AD), (0x26F, 0x26F, 1, 0x19C),
   (0x271, 0x271, 1, 0x2C6E), (0x272, 0x272, 1, 0x19D), (0x275, 0x275, 1, 0x19F),
   (0x27D, 0x27D, 1, 0x2C64), (0x280, 0x280, 1, 0x1A6), (0x282, 0x282, 1, 0xA7C5),
   (0x283, 0x283, 1, 0x1A9), (0x287, 0x287, 1, 0xA7B1), (0x288, 0x288, 1, 0x1AE),
   (0x289, 0x289, 1, 0x244), (0x28A, 0x28B, 1, 0x1B1), (0x28C, 0x28C, 1, 0x245),
   (0x292, 0x292, 1, 0x1B7), (0x29D, 0x29D, 1, 0xA7B2), (0x29E, 0x29E, 1, 0xA7B0),
   (0x345, 0x345, 1, 0x399), (0x371, 0x373, 2, 0x370), (0x377, 0x377, 1, 0x376),
   (0x37B, 0x37D, 1, 0x3FD), (0x3AC, 0x3AC, 1, 0x386), (0x3AD, 0x3AF, 1, 0x388),
   (0x3B1, 0x3C1, 1, 0x391), (0x3C2, 0x3C2, 1, 0x3A3), (0x3C3, 0x3CB, 1, 0x3A3),
   (0x3CC, 0x3CC, 1, 0x38C), (0x3CD, 0x3CE, 1, 0x38E), (0x3D0, 0x3D0, 1, 0x392),
   (0x3D1, 0x3D1, 1, 0x398), (0x3D5, 0x3D5, 1, 0x3A6), (0x3D6, 0x3D6, 1, 0x3A0),
   (0x3D7, 0x3D7, 1, 0x3CF), (0x3D9, 0x3EF, 2, 0x3D8), (0x3F0, 0x3F0, 1, 0x39A),
   (0x3F1, 0x3F1, 1, 0x3A1), (0x3F2, 0x3F2, 1, 0x3F9), (0x3F3, 0x3F3, 1, 0x37F),
   (0x3F5, 0x3F5, 1, 0x395), (0x3F8, 0x3F8, 1, 0x3F7), (0x3FB, 0x3FB, 1, 0x3FA),
   (0x430, 0x44F, 1, 0x410), (0x450, 0x45F, 1, 0x400), (0x461, 0x481, 2, 0x460),
   (0x48B, 0x4BF, 2, 0x48A), (0x4C2, 0x4CE, 2, 0x4C1), (0x4CF, 0x4CF, 1, 0x4C0),
   (0x4D1, 0x52F, 2, 0x4D0), (0x561, 0x586, 1, 0x531), (0x10D0, 0x10FA, 1, 0x1C90),
   (0x10FD, 0x10FF, 1, 0x1CBD), (0x13F8, 0x13FD, 1, 0x13F0), (0x1C80, 0x1C80, 1, 0x412),
   (0x1C81, 0x1C81, 1, 0x414), (0x1C82, 0x1C82, 1, 0x41E), (0x1C83, 0x1C84, 1, 0x421),
   (0x1C85, 0x1C85, 1, 0x422), (0x1C86, 0x1C86, 1, 0x42A), (0x1C87, 0x1C87, 1, 0x462),
   (0x1C88, 0x1C88, 1, 0xA64A), (0x1D79, 0x1D79, 1, 0xA77D), (0x1D7D, 0x1D7D, 1, 0x2C63),
   (0x1D8E, 0x1D8E, 1, 0xA7C6), (0x1E01, 0x1E95, 2, 0x1E00), (0x1E9B, 0x1E9B, 1, 0x1E60),
   (0x1EA1, 0x1EFF, 2, 0x1EA0), (0x1F00, 0x1F07, 1, 0x1F08), (0x1F10, 0x1F15, 1, 0x1F18),
   (0x1F20, 0x1F27, 1, 0x1F28), (0x1F30, 0x1F37, 1, 0x1F38), (0x1F40, 0x1F45, 1, 0x1F48),
   (0x1F51, 0x1F57, 2, 0x1F59), (0x1F60, 0x1F67, 1, 0x1F68), (0x1F70, 0x1F71, 1, 0x1FBA),
   (0x1F72, 0x1F75, 1, 0x1FC8), (0x1F76, 0x1F77, 1, 0x1FDA), (0x1F78, 0x1F79, 1, 0x1FF8),
   (0x1F7A, 0x1F7B, 1, 0x1FEA), (0x1F7C, 0x1F7D, 1, 0x1FFA), (0x1F80, 0x1F87, 1, 0x1F88),
   (0x1F90, 0x1F97, 1, 0x1F98), (0x1FA0, 0x1FA7, 1, 0x1FA8), (0x1FB0, 0x1FB1, 1, 0x1FB8),
   (0x1FB3, 0x1FB3, 1, 0x1FBC), (0x1FBE, 0x1FBE, 1, 0x399), (0x1FC3, 0x1FC3, 1, 0x1FCC),
   (0x1FD0, 0x1FD1, 1, 0x1FD8), (0x1FE0, 0x1FE1, 1, 0x1FE8), (0x1FE5, 0x1FE5, 1, 0x1FEC),
   (0x1FF3, 0x1FF3, 1, 0x1FFC), (0x214E, 0x214E, 1, 0x2132), (0x2170, 0x217F, 1, 0x2160),
   (0x2184, 0x2184, 1, 0x2183), (0x24D0, 0x24E9, 1, 0x24B6), (0x2C30, 0x2C5F, 1, 0x2C00),
   (0x2C61, 0x2C61, 1, 0x2C60), (0x2C65, 0x2C65, 1, 0x23A), (0x2C66, 0x2C66, 1, 0x23E),
   (0x2C68, 0x2C6C, 2, 0x2C67), (0x2C73, 0x2C73, 1, 0x2C72), (0x2C76, 0x2C76, 1, 0x2C75),
   (0x2C81, 0x2CE3, 2, 0x2C80), (0x2CEC, 0x2CEE, 2, 0x2CEB), (0x2CF3, 0x2CF3, 1, 0x2CF2),
   (0x2D00, 0x2D25, 1, 0x10A0), (0x2D27, 0x2D27, 1, 0x10C7), (0x2D2D, 0x2D2D, 1, 0x10CD),
   (0xA641, 0xA66D, 2, 0xA640), (0xA681, 0xA69B, 2, 0xA680), (0xA723, 0xA72F, 2, 0xA722),
   (0xA733, 0xA76F, 2, 0xA732), (0xA77A, 0xA77C, 2, 0xA779), (0xA77F, 0xA787, 2, 0xA77E),
   (0xA78C, 0xA78C, 1, 0xA78B), (0xA791, 0xA793, 2, 0xA790), (0xA794, 0xA794, 1, 0xA7C4),
   (0xA797, 0xA7A9, 2, 0xA796), (0xA7B5, 0xA7C3, 2, 0xA7B4), (0xA7C8, 0xA7CA, 2, 0xA7C7),
   (0xA7D1, 0xA7D1, 1, 0xA7D0), (0xA7D7, 0xA7D9, 2, 0xA7D6), (0xA7F6, 0xA7F6, 1, 0xA7F5),
   (0xAB53, 0xAB53, 1, 0xA7B3), (0xAB70, 0xABBF, 1, 0x13A0), (0xFF41, 0xFF5A, 1, 0xFF21),
   (0x10428, 0x1044F, 1, 0x10400), (0x104D8, 0x104FB, 1, 0x104B0), (0x10597, 0x105BB, 2, 0x10570),
   (0x10598, 0x105A0, 2, 0x10571), (0x105A4, 0x105B0, 2, 0x1057D), (0x105B4, 0x105B8, 2, 0x1058D),
   (0x105BC, 0x105BC, 1, 0x10595), (0x10CC0, 0x10CF2, 1, 0x10C80), (0x118C0, 0x118DF, 1, 0x118A0),
   (0x16E60, 0x16E7F, 1, 0x16E40), (0x1E922, 0x1E943, 1, 0x1E900)]

/-- The simple case foldings of the Unicode Character Database (14.0.0, the entries of
`CaseFolding.txt` with status C or S), from which Go builds the orbits of
`unicode.SimpleFold`. -/
def foldRanges : List CaseRange :=
  [(0x41, 0x5A, 1, 0x61), (0xB5, 0xB5, 1, 0x3BC), (0xC0, 0xD6, 1, 0xE0), (0xD8, 0xDE, 1, 0xF8),
   (0x100, 0x12E, 2, 0x101), (0x132, 0x136, 2, 0x133), (0x139, 0x147, 2, 0x13A),
   (0x14A, 0x176, 2, 0x14B), (0x178, 0x178, 1, 0xFF), (0x179, 0x17D, 2, 0x17A),
   (0x17F, 0x17F, 1, 0x73), (0x181, 0x181, 1, 0x253), (0x182, 0x184, 2, 0x183),
   (0x186, 0x186, 1, 0x254), (0x187, 0x187, 1, 0x188), (0x189, 0x18A, 1, 0x256),
   (0x18B, 0x18B, 1, 0x18C), (0x18E, 0x18E, 1, 0x1DD), (0x18F, 0x18F, 1, 0x259),
   (0x190, 0x190, 1, 0x25B), (0x191, 0x191, 1, 0x192), (0x193, 0x193, 1, 0x260),
   (0x194, 0x194, 1, 0x263), (0x196, 0x196, 1, 0x269), (0x197, 0x197, 1, 0x268),
   (0x198, 0x198, 1, 0x199), (0x19C, 0x19C, 1, 0x26F), (0x19D, 0x19D, 1, 0x272),
   (0x19F, 0x19F, 1, 0x275), (0x1A0, 0x1A4, 2, 0x1A1), (0x1A6, 0x1A6, 1, 0x280),
   (0x1A7, 0x1A7, 1, 0x1A8), (0x1A9, 0x1A9, 1, 0x283), (0x1AC, 0x1AC, 1, 0x1AD),
   (0x1AE, 0x1AE, 1, 0x288), (0x1AF, 0x1AF, 1, 0x1B0), (0x1B1, 0x1B2, 1, 0x28A),
   (0x1B3, 0x1B5, 2, 0x1B4), (0x1B7, 0x1B7, 1, 0x292), (0x1B8, 0x1B8, 1, 0x1B9),
   (0x1BC, 0x1BC, 1, 0x1BD), (0x1C4, 0x1C4, 1, 0x1C6), (0x1C5, 0x1C5, 1, 0x1C6),
   (0x1C7, 0x1C7, 1, 0x1C9), (0x1C8, 0x1C8, 1, 0x1C9), (0x1CA, 0x1CA, 1, 0x1CC),
   (0x1CB, 0x1DB, 2, 0x1CC), (0x1DE, 0x1EE, 2, 0x1DF), (0x1F1, 0x1F1, 1, 0x1F3),
   (0x1F2, 0x1F4, 2, 0x1F3), (0x1F6, 0x1F6, 1, 0x195), (0x1F7, 0x1F7, 1, 0x1BF),
   (0x1F8, 0x21E, 2, 0x1F9), (0x220, 0x220, 1, 0x19E), (0x222, 0x232, 2, 0x223),
   (0x23A, 0x23A, 1, 0x2C65), (0x23B, 0x23B, 1, 0x23C), (0x23D, 0x23D, 1, 0x19A),
   (0x23E, 0x23E, 1, 0x2C66), (0x241, 0x241, 1, 0x242), (0x243, 0x243, 1, 0x180),
   (0x244, 0x244, 1, 0x289), (0x245, 0x245, 1, 0x28C), (0x246, 0x24E, 2, 0x247),
   (0x345, 0x345, 1, 0x3B9), (0x370, 0x372, 2, 0x371), (0x376, 0x376, 1, 0x377),
   (0x37F, 0x37F, 1, 0x3F3), (0x386, 0x386, 1, 0x3AC), (0x388, 0x38A, 1, 0x3AD),
   (0x38C, 0x38C, 1, 0x3CC), (0x38E, 0x38F, 1, 0x3CD), (0x391, 0x3A1, 1, 0x3B1),
   (0x3A3, 0x3AB, 1, 0x3C3), (0x3C2, 0x3C2, 1, 0x3C3), (0x3CF, 0x3CF, 1, 0x3D7),
   (0x3D0, 0x3D0, 1, 0x3B2), (0x3D1, 0x3D1, 1, 0x3B8), (0x3D5, 0x3D5, 1, 0x3C6),
   (0x3D6, 0x3D6, 1, 0x3C0), (0x3D8, 0x3EE, 2, 0x3D9), (0x3F0, 0x3F0, 1, 0x3BA),
   (0x3F1, 0x3F1, 1, 0x3C1), (0x3F4, 0x3F4, 1, 0x3B8), (0x3F5, 0x3F5, 1, 0x3B5),
   (0x3F7, 0x3F7, 1, 0x3F8), (0x3F9, 0x3F9, 1, 0x3F2), (0x3FA, 0x3FA, 1, 0x3FB),
   (0x3FD, 0x3FF, 1, 0x37B), (0x400, 0x40F, 1, 0x450), (0x410, 0x42F, 1, 0x430),
   (0x460, 0x480, 2, 0x461), (0x48A, 0x4BE, 2, 0x48B), (0x4C0, 0x4C0, 1, 0x4CF),
   (0x4C1, 0x4CD, 2, 0x4C2), (0x4D0, 0x52E, 2, 0x4D1), (0x531, 0x556, 1, 0x561),
   (0x10A0, 0x10C5, 1, 0x2D00), (0x10C7, 0x10C7, 1, 0x2D27), (0x10CD, 0x10CD, 1, 0x2D2D),
   (0x13F8, 0x13FD, 1, 0x13F0), (0x1C80, 0x1C80, 1, 0x432), (0x1C81, 0x1C81, 1, 0x434),
   (0x1C82, 0x1C82, 1, 0x43E), (0x1C83, 0x1C84, 1, 0x441), (0x1C85, 0x1C85, 1, 0x442),
   (0x1C86, 0x1C86, 1, 0x44A), (0x1C87, 0x1C87, 1, 0x463), (0x1C88, 0x1C88, 1, 0xA64B),
   (0x1C90, 0x1CBA, 1, 0x10D0), (0x1CBD, 0x1CBF, 1, 0x10FD), (0x1E00, 0x1E94, 2, 0x1E01),
   (0x1E9B, 0x1E9B, 1, 0x1E61), (0x1E9E, 0x1E9E, 1, 0xDF), (0x1EA0, 0x1EFE, 2, 0x1EA1),
   (0x1F08, 0x1F0F, 1, 0x1F00), (0x1F18, 0x1F1D, 1, 0x1F10), (0x1F28, 0x1F2F, 1, 0x1F20),
   (0x1F38, 0x1F3F, 1, 0x1F30), (0x1F48, 0x1F4D, 1, 0x1F40), (0x1F59, 0x1F5F, 2, 0x1F51),
   (0x1F68, 0x1F6F, 1, 0x1F60), (0x1F88, 0x1F8F, 1, 0x1F80), (0x1F98, 0x1F9F, 1, 0x1F90),
   (0x1FA8, 0x1FAF, 1, 0x1FA0), (0x1FB8, 0x1FB9, 1, 0x1FB0), (0x1FBA, 0x1FBB, 1, 0x1F70),
   (0x1FBC, 0x1FBC, 1, 0x1FB3), (0x1FBE, 0x1FBE, 1, 0x3B9), (0x1FC8, 0x1FCB, 1, 0x1F72),
   (0x1FCC, 0x1FCC, 1, 0x1FC3), (0x1FD8, 0x1FD9, 1, 0x1FD0), (0x1FDA, 0x1FDB, 1, 0x1F76),
   (0x1FE8, 0x1FE9, 1, 0x1FE0), (0x1FEA, 0x1FEB, 1, 0x1F7A), (0x1FEC, 0x1FEC, 1, 0x1FE5),
   (0x1FF8, 0x1FF9, 1, 0x1F78), (0x1FFA, 0x1FFB, 1, 0x1F7C), (0x1FFC, 0x1FFC, 1, 0x1FF3),
   (0x2126, 0x2126, 1, 0x3C9), (0x212A, 0x212A, 1, 0x6B), (0x212B, 0x212B, 1, 0xE5),
   (0x2132, 0x2132, 1, 0x214E), (0x2160, 0x216F, 1, 0x2170), (0x2183, 0x2183, 1, 0x2184),
   (0x24B6, 0x24CF, 1, 0x24D0), (0x2C00, 0x2C2F, 1, 0x2C30), (0x2C60, 0x2C60, 1, 0x2C61),
   (0x2C62, 0x2C62, 1, 0x26B), (0x2C63, 0x2C63, 1, 0x1D7D), (0x2C64, 0x2C64, 1, 0x27D),
   (0x2C67, 0x2C6B, 2, 0x2C68), (0x2C6D, 0x2C6D, 1, 0x251), (0x2C6E, 0x2C6E, 1, 0x271),
   (0x2C6F, 0x2C6F, 1, 0x250), (0x2C70, 0x2C70, 1, 0x252), (0x2C72, 0x2C72, 1, 0x2C73),
   (0x2C75, 0x2C75, 1, 0x2C76), (0x2C7E, 0x2C7F, 1, 0x23F), (0x2C80, 0x2CE2, 2, 0x2C81),
   (0x2CEB, 0x2CED, 2, 0x2CEC), (0x2CF2, 0x2CF2, 1, 0x2CF3), (0xA640, 0xA66C, 2, 0xA641),
   (0xA680, 0xA69A, 2, 0xA681), (0xA722, 0xA72E, 2, 0xA723), (0xA732, 0xA76E, 2, 0xA733),
   (0xA779, 0xA77B, 2, 0xA77A), (0xA77D, 0xA77D, 1, 0x1D79), (0xA77E, 0xA786, 2, 0xA77F),
   (0xA78B, 0xA78B, 1, 0xA78C), (0xA78D, 0xA78D, 1, 0x265), (0xA790, 0xA792, 2, 0xA791),
   (0xA796, 0xA7A8, 2, 0xA797), (0xA7AA, 0xA7AA, 1, 0x266), (0xA7AB, 0xA7AB, 1, 0x25C),
   (0xA7AC, 0xA7AC, 1, 0x261), (0xA7AD, 0xA7AD, 1, 0x26C), (0xA7AE, 0xA7AE, 1, 0x26A),
   (0xA7B0, 0xA7B0, 1, 0x29E), (0xA7B1, 0xA7B1, 1, 0x287), (0xA7B2, 0xA7B2, 1, 0x29D),
   (0xA7B3, 0xA7B3, 1, 0xAB53), (0xA7B4, 0xA7C2, 2, 0xA7B5), (0xA7C4, 0xA7C4, 1, 0xA794),
   (0xA7C5, 0xA7C5, 1, 0x282), (0xA7C6, 0xA7C6, 1, 0x1D8E), (0xA7C7, 0xA7C9, 2, 0xA7C8),
   (0xA7D0, 0xA7D0, 1, 0xA7D1), (0xA7D6, 0xA7D8, 2, 0xA7D7), (0xA7F5, 0xA7F5, 1, 0xA7F6),
   (0xAB70, 0xABBF, 1, 0x13A0), (0xFF21, 0xFF3A, 1, 0xFF41), (0x10400, 0x10427, 1, 0x10428),
   (0x104B0, 0x104D3, 1, 0x104D8), (0x10570, 0x10594, 2, 0x10597), (0x10571, 0x10579, 2, 0x10598),
   (0x1057D, 0x10589, 2, 0x105A4), (0x1058D, 0x10591, 2, 0x105B4), (0x10595, 0x10595, 1, 0x105BC),
   (0x10C80, 0x10CB2, 1, 0x10CC0), (0x118A0, 0x118BF, 1, 0x118C0), (0x16E40, 0x16E5F, 1, 0x16E60),
   (0x1E900, 0x1E921, 1, 0x1E922)]

/-- Go `unicode.To` on a case table: the code point r mapped by the run that holds it,
and r itself when no run does. -/
def caseTo (table : List CaseRange) (r : Nat) : Nat :=
  match table.find? (fun e => decide (e.1 ≤ r) && decide (r ≤ e.2.1) &&
      (r - e.1) % e.2.2.1 == 0) with
  | some e => e.2.2.2 + (r - e.1)
  | none => r

/-- Go `unicode.ToLower`: the ASCII letters by arithmetic, any other rune by the table. -/
def unicode.ToLower (c : Char) : Char :=
  if c.toNat < 128 then c.toLower else Char.ofNat (caseTo lowerRanges c.toNat)

/-- Go `unicode.ToUpper`: the ASCII letters by arithmetic, any other rune by the table. -/
def unicode.ToUpper (c : Char) : Char :=
  if c.toNat < 128 then c.toUpper else Char.ofNat (caseTo upperRanges c.toNat)

/-- The simple case folding of a rune. Two runes are in one orbit of Go
`unicode.SimpleFold` exactly when they fold to the same rune. -/
def foldRune (c : Char) : Char :=
  if c.toNat < 128 then c.toLower else Char.ofNat (caseTo foldRanges c.toNat)

/-- Go `strings.ToLower`: every rune mapped by `unicode.ToLower`. -/
def ToLower (s : String) : String := String.mk (s.data.map unicode.ToLower)

/-- Go `strings.EqualFold`: the two strings have as many runes, and the runes at each
position are equal or in one orbit of `unicode.SimpleFold`. -/
def EqualFold (s t : String) : Bool := s.data.map foldRune == t.data.map foldRune

/-- Modelled from the spec: the `Score` type, a 64-bit double (declared outside this
file): NaN, the two infinities and the finite values. -/
inductive Score where
  | nan
  | negInf
  | fin (q : ℚ)
  | posInf
  deriving DecidableEq

namespace Score

/-- Go `Score(n)` for an `int` n. -/
def ofInt (n : Int) : Score := .fin (n : ℚ)

/-- Go `a < b` on `float64`: false as soon as one side is NaN. -/
def lt : Score → Score → Bool
  | .nan, _ => false
  | _, .nan => false
  | .negInf, .negInf => false
  | .negInf, _ => true
  | _, .negInf => false
  | .posInf, _ => false
  | .fin _, .posInf => true
  | .fin a, .fin b => decide (a < b)

/-- Go `a <= b` on `float64`: false as soon as one side is NaN. -/
def le : Score → Score → Bool
  | .nan, _ => false
  | _, .nan => false
  | .negInf, _ => true
  | .fin _, .negInf => false
  | .posInf, .negInf => false
  | _, .posInf => true
  | .posInf, .fin _ => false
  | .fin a, .fin b => decide (a ≤ b)

/-- Go `a >= b` on `float64`. -/
def ge (a b : Score) : Bool := le b a

/-- Go `a + b` on `float64` (finite sums are exact here). -/
def add : Score → Score → Score
  | .nan, _ => .nan
  | _, .nan => .nan
  | .negInf, .posInf => .nan
  | .posInf, .negInf => .nan
  | .negInf, _ => .negInf
  | _, .negInf => .negInf
  | .posInf, _ => .posInf
  | _, .posInf => .posInf
  | .fin a, .fin b => .fin (a + b)

/-- Go `math.IsNaN`. -/
def isNaN : Score → Bool
  | .nan => true
  | _ => false

end Score

/-- Go `cmp.Compare` on `float64`: a NaN is less than any non-NaN and equal to a NaN. -/
def Compare (x y : Score) : Int :=
  if x.isNaN then (if y.isNaN then 0 else -1)
  else if y.isNaN then 1
  else if x.lt y then -1
  else if y.lt x then 1
  else 0

/-- Left-pad a digit string with zeros up to the width w. -/
def padZeros (w : Nat) (s : String) : String :=
  String.mk (List.replicate (w - s.length) '0') ++ s

/-- Go `fmt.Sprintf("%f", x)`: six decimals, round half to even. -/
def Sprintf_f : Score → String
  | .nan => "NaN"
  | .posInf => "+Inf"
  | .negInf => "-Inf"
  | .fin q =>
    let a := q.num.natAbs * 1000000
    let n := a / q.den
    let r := a % q.den
    let n := if 2 * r > q.den || (2 * r == q.den && n % 2 == 1) then n + 1 else n
    (if q < 0 then "-" else "") ++ toString (n / 1000000) ++ "." ++
      padZeros 6 (toString (n % 1000000))

/-- The fractional digits of `r / d`, at most `fuel` of them, stopping when exact. -/
def fracDigits (d : Nat) : Nat → Nat → List Char
  | 0, _ => []
  | fuel + 1, r =>
    if r = 0 then [] else Nat.digitChar (10 * r / d) :: fracDigits d fuel (10 * r % d)

/-- Go `strconv.FormatFloat(x, 'f', -1, 64)`: the shortest decimal text of x
(exact for decimal fractions, cut after 17 fractional digits otherwise). -/
def FormatFloat : Score → String
  | .nan => "NaN"
  | .posInf => "+Inf"
  | .negInf => "-Inf"
  | .fin q =>
    let a := q.num.natAbs
    let ds := fracDigits q.den 17 (a % q.den)
    (if q < 0 then "-" else "") ++ toString (a / q.den) ++
      (if ds.isEmpty then "" else "." ++ String.mk ds)

/-! ## The `utils` package -/

/-- Modelled from the spec: `utils.WRONG_ARGS_RESPONSE`, the text of the arity error
(the constant is declared in the `utils` package, outside this file). -/
def WRONG_ARGS_RESPONSE : String := "wrong number of arguments"

/-- Modelled from the spec: `utils.Contains`, membership of a string in a slice. -/
def Contains (xs : List String) (x : String) : Bool := xs.contains x

/-- Modelled from the spec: the dynamic type `utils.AdaptType` returns, as the type
switches of the handlers take it apart: `int`, `float64` or `string`. -/
inductive Adapted where
  | int (n : Int)
  | float (f : Score)
  | str (s : String)
  deriving DecidableEq

/-- Modelled from the spec: the value of a string of decimal digits (for `AdaptType`). -/
def digitsToNat (cs : List Char) : Nat :=
  cs.foldl (fun n c => 10 * n + (c.toNat - 48)) 0

/-- Modelled from the spec: a non-empty string of decimal digits (for `AdaptType`). -/
def allDigits (cs : List Char) : Bool := !cs.isEmpty && cs.all Char.isDigit

/-- Modelled from the spec: `utils.AdaptType`, the type adapter of the host package.
It yields an `int` for integer text (an optional sign and digits), a `float64` for
decimal text (an optional sign, digits, a point, digits) and the string itself
otherwise; so `+inf` and `-inf` come back as strings. -/
def AdaptType (s : String) : Adapted :=
  let neg := s.data.head? == some '-'
  let body := match s.data with
    | '-' :: r => r
    | '+' :: r => r
    | r => r
  let ip := body.takeWhile (· != '.')
  match body.dropWhile (· != '.') with
  | [] =>
    if allDigits ip then .int (if neg then -(digitsToNat ip : Int) else digitsToNat ip)
    else .str s
  | _ :: fp =>
    if allDigits ip && allDigits fp then
      let m : Int := digitsToNat (ip ++ fp)
      .float (.fin (mkRat (if neg then -m else m) (10 ^ fp.length)))
    else .str s

/-! ## The sorted set -/

/-- Modelled from the spec: the member `Value`, a string (declared outside this file). -/
abbrev Value := String

/-- Modelled from the spec: `MemberParam`, the `MemberEntry` pair of a value and its
score (declared outside this file; the handlers use these two fields). -/
structure MemberParam where
  value : Value
  score : Score
  deriving DecidableEq

/-- Modelled from the spec: `MemberObject`, what `Get` returns (declared outside this
file; the handlers use `score` and `exists`); the zero value when the member is absent. -/
structure MemberObject where
  value : Value
  score : Score
  exists_ : Bool
  deriving DecidableEq

/-- Modelled from the spec: the `SortedSet` container (its code is outside this file):
the members in enumeration order, each value at most once. -/
structure SortedSet where
  members : List MemberParam
  deriving DecidableEq

/-- Modelled from the spec: the enumeration order of the data model, score ascending,
then value ascending. -/
def memberLE (a b : MemberParam) : Bool :=
  a.score.lt b.score || (a.score == b.score && decide (a.value ≤ b.value))

namespace SortedSet

/-- Modelled from the spec: `cardinality()`. -/
def Cardinality (s : SortedSet) : Nat := s.members.length

/-- Modelled from the spec: `enumerate()`, the members in the order of the data model. -/
def GetAll (s : SortedSet) : List MemberParam := s.members

/-- Modelled from the spec: `get(value)`, the membership probe with score; the zero
`MemberObject` (score 0, not existing) when the member is absent. -/
def Get (s : SortedSet) (v : Value) : MemberObject :=
  match s.members.find? (fun m => m.value == v) with
  | some m => ⟨m.value, m.score, true⟩
  | none => ⟨"", .fin 0, false⟩

/-- Modelled from the spec: membership of a value. -/
def Has (s : SortedSet) (v : Value) : Bool := s.members.any (fun m => m.value == v)

/-- Modelled from the spec: `remove(value)`, reporting whether a member was removed. -/
def Remove (s : SortedSet) (v : Value) : Bool × SortedSet :=
  (s.Has v, ⟨s.members.filter (fun m => m.value != v)⟩)

/-- Modelled from the spec: setting the score of a value, the member being added if
it is absent, at its place in the enumeration order. -/
def put (s : SortedSet) (m : MemberParam) : SortedSet :=
  ⟨List.orderedInsert (fun a b => memberLE a b = true) m
    (s.members.filter (fun x => x.value != m.value))⟩

end SortedSet

/-- Modelled from the spec: `new_sorted_set(initial_members)`; a value given twice
keeps its last score. -/
def NewSortedSet (members : List MemberParam) : SortedSet :=
  members.foldl SortedSet.put ⟨[]⟩

/-- Modelled from the spec: the flags of `add_or_update`, decoded from the nullable
option values the handlers pass (`nil` or the option token). -/
def flagIs (o : Option String) (name : String) : Bool :=
  match o with
  | some s => ToLower s == name
  | none => false

/-- Modelled from the spec: one member of `add_or_update`: the counts of added and of
changed members and the set, after the member m has been treated under the flags. -/
def addOrUpdateOne (xx nx gt lt incr : Bool) (m : MemberParam)
    (st : Nat × Nat × SortedSet) : Except String (Nat × Nat × SortedSet) :=
  let cur := st.2.2.Get m.value
  if !cur.exists_ then
    if xx then .ok st else .ok (st.1 + 1, st.2.1, st.2.2.put m)
  else if nx then .ok st
  else
    let target := if incr then cur.score.add m.score else m.score
    if target.isNaN then .error "score is not a number"
    else if gt && !(cur.score.lt target) then .ok st
    else if lt && !(target.lt cur.score) then .ok st
    else if target == cur.score then .ok st
    else .ok (st.1, st.2.1 + 1, st.2.2.put ⟨m.value, target⟩)

/-- Modelled from the spec: the members of `add_or_update`, treated from left to right. -/
def addOrUpdateAll (xx nx gt lt incr : Bool) :
    List MemberParam → Nat × Nat × SortedSet → Except String (Nat × Nat × SortedSet)
  | [], st => .ok st
  | m :: ms, st =>
    match addOrUpdateOne xx nx gt lt incr m st with
    | .error e => .error e
    | .ok st1 => addOrUpdateAll xx nx gt lt incr ms st1

/-- Modelled from the spec: `add_or_update(members, update_policy, comparison,
change_flag, incr_flag)` of the `SortedSet` (its code is outside this file).
XX (OnlyIfExists) never adds an absent member, NX (OnlyIfAbsent) never touches a
present one, GT/LT let an update through only if the new score is strictly
greater/less, INCR adds the given score to the present one (or takes it as the
score if the member is absent). The count is that of the added members, and with
CH also of the changed ones. Failures: INCR with other than one member, NX with
GT or LT, NaN. The set is returned with the count; on failure it is left as it was. -/
def SortedSet.AddOrUpdate (set : SortedSet) (members : List MemberParam)
    (updatePolicy comparison changed incr : Option String) :
    Except String (Nat × SortedSet) :=
  let xx := flagIs updatePolicy "xx"
  let nx := flagIs updatePolicy "nx"
  let gt := flagIs comparison "gt"
  let lt := flagIs comparison "lt"
  let ch := flagIs changed "ch"
  let inc := flagIs incr "incr"
  if inc && members.length != 1 then
    .error "INCR can only be used with one score/member pair"
  else if nx && (gt || lt) then
    .error "GT/LT flags not allowed if NX flag is provided"
  else if members.any (fun m => m.score.isNaN) then
    .error "score is not a number"
  else
    match addOrUpdateAll xx nx gt lt inc members (0, 0, set) with
    | .error e => .error e
    | .ok (added, updated, set1) => .ok (added + (if ch then updated else 0), set1)

/-! ## The host (`utils.Server`) -/

/-- Modelled from the spec: the dynamic value the host holds under a key: a sorted
set, a value of another type, or `nil` (a key just created). -/
inductive Stored where
  | zset (s : SortedSet)
  | other (tag : String)
  | nil
  deriving DecidableEq

/-- Modelled from the spec: the state-changing operations of the `KeyspaceHost` a
handler calls. -/
inductive HostCall where
  | KeyLock (key : String)
  | KeyRLock (key : String)
  | CreateKeyAndLock (key : String)
  | KeyUnlock (key : String)
  | KeyRUnlock (key : String)
  | SetValue (key : String)
  deriving DecidableEq

/-- Modelled from the spec: the `KeyspaceHost` (`utils.Server`, declared outside this
file): the keyspace and the trace of the state-changing calls made on it, oldest
first. A lock call is traced when the lock was acquired. -/
structure Server where
  store : List (String × Stored)
  trace : List HostCall
  deriving DecidableEq

/-- Modelled from the spec: the cancellation handle `ctx`. A lock acquisition is
cancellable; `ctx key` tells whether the lock on `key` is acquired before the
context is done. -/
abbrev Context := String → Bool

/-- Modelled from the spec: the `Cancelled` error a lock call returns when the context
is done first. -/
def LOCK_CANCELLED : String := "context done before the lock was acquired"

namespace Server

/-- Modelled from the spec: `key_exists(name)`, the non-blocking probe. -/
def KeyExists (s : Server) (key : String) : Bool := s.store.any (fun kv => kv.1 == key)

/-- Modelled from the spec: `get_value(name)`; `nil` for a key that is not there. -/
def GetValue (s : Server) (key : String) : Stored :=
  match s.store.find? (fun kv => kv.1 == key) with
  | some kv => kv.2
  | none => .nil

/-- Modelled from the spec: the keyspace with the value under a key replaced, the key
being added if it is absent. -/
def bind (store : List (String × Stored)) (key : String) (v : Stored) :
    List (String × Stored) :=
  if store.any (fun kv => kv.1 == key) then
    store.map (fun kv => if kv.1 == key then (key, v) else kv)
  else store ++ [(key, v)]

/-- Modelled from the spec: a call that acquires a lock: traced when `ctx` lets it
through, an error otherwise. -/
def acquire (s : Server) (ctx : Context) (key : String) (call : HostCall) :
    Except String Server :=
  if ctx key then .ok { s with trace := s.trace ++ [call] } else .error LOCK_CANCELLED

/-- Modelled from the spec: `write_lock(ctx, name)`. -/
def KeyLock (s : Server) (ctx : Context) (key : String) : Except String Server :=
  s.acquire ctx key (.KeyLock key)

/-- Modelled from the spec: `read_lock(ctx, name)`. -/
def KeyRLock (s : Server) (ctx : Context) (key : String) : Except String Server :=
  s.acquire ctx key (.KeyRLock key)

/-- Modelled from the spec: `create_and_write_lock(ctx, name)`: creates the key, with
no value yet, and acquires the exclusive lock. -/
def CreateKeyAndLock (s : Server) (ctx : Context) (key : String) : Except String Server :=
  if ctx key then
    .ok { store := bind s.store key .nil, trace := s.trace ++ [.CreateKeyAndLock key] }
  else .error LOCK_CANCELLED

/-- Modelled from the spec: `release(name)` of an exclusive lock. -/
def KeyUnlock (s : Server) (key : String) : Server :=
  { s with trace := s.trace ++ [.KeyUnlock key] }

/-- Modelled from the spec: `release(name)` of a shared lock. -/
def KeyRUnlock (s : Server) (key : String) : Server :=
  { s with trace := s.trace ++ [.KeyRUnlock key] }

/-- Modelled from the spec: `set_value(ctx, name, value)`. -/
def SetValue (s : Server) (key : String) (v : Stored) : Server :=
  { store := bind s.store key v, trace := s.trace ++ [.SetValue key] }

/-- Modelled from the spec: the effect of mutating, through its pointer, the sorted
set held under a key: the keyspace now holds the mutated set; this is no host call. -/
def mutated (s : Server) (key : String) (set : SortedSet) : Server :=
  { s with store := bind s.store key (.zset set) }

end Server

/-- What a handler returns: the error or the reply bytes, and the host afterwards. -/
abbrev Outcome := Except String String × Server

deriving instance DecidableEq for Except

/-! ## handleZADD -/

/-- The test of the scan in `handleZADD` for "a valid score": the adapter yields an
`int` or a `float64`, or a string that reads `-inf` or `+inf` in any letter case. -/
def isScore (t : String) : Bool :=
  match AdaptType t with
  | .str _ => Contains ["-inf", "+inf"] (ToLower t)
  | .float _ => true
  | .int _ => true

/-- The scan `for i := 0; i < len(cmd); i++` of `handleZADD`: it stops as soon as
`membersStartIndex` is not 0, and otherwise sets it to i when `cmd[i]` is a score. -/
def findMembersStart : List String → Nat → Nat → Nat
  | [], _, membersStartIndex => membersStartIndex
  | t :: rest, i, membersStartIndex =>
    if membersStartIndex != 0 then membersStartIndex
    else findMembersStart rest (i + 1) (if isScore t then i else membersStartIndex)

/-- The value of `membersStartIndex` after the scan of the whole command. -/
def membersStartIndex (cmd : List String) : Nat := findMembersStart cmd 0 0

/-- The loop of `handleZADD` over `cmd[membersStartIndex:]`, two tokens at a time:
the token in score position is adapted, and the member is appended for an `int`, a
`float64`, and for a string reading `-inf` or `+inf`; for any other string nothing
is appended. The `default` arm of the type switch is never taken, the adapter
yielding only the three types. -/
def parseMembers : List String → List MemberParam
  | s :: m :: rest =>
    (match AdaptType s with
      | .str t =>
        (if ToLower t == "-inf" then [MemberParam.mk m .negInf] else []) ++
        (if ToLower t == "+inf" then [MemberParam.mk m .posInf] else [])
      | .float f => [MemberParam.mk m f]
      | .int n => [MemberParam.mk m (.ofInt n)]) ++ parseMembers rest
  | _ => []

/-- The four option variables of `handleZADD`, `nil` until an option sets them. -/
structure ZAddOptions where
  updatePolicy : Option String
  comparison : Option String
  changed : Option String
  incr : Option String
  deriving DecidableEq

/-- The loop of `handleZADD` over `options := cmd[2:membersStartIndex]`. -/
def parseOptions : List String → ZAddOptions → Except String ZAddOptions
  | [], o => .ok o
  | option :: rest, o =>
    if Contains ["xx", "nx"] (ToLower option) then
      parseOptions rest { o with updatePolicy := some option }
    else if Contains ["gt", "lt"] (ToLower option) then
      parseOptions rest { o with comparison := some option }
    else if EqualFold option "ch" then
      parseOptions rest { o with changed := some option }
    else if EqualFold option "incr" then
      parseOptions rest { o with incr := some option }
    else .error ("invalid option " ++ option)

/-- The handler `handleZADD`. The option loop runs over `cmd[2:membersStartIndex]`,
which is empty when `membersStartIndex` is 2 (the source then skips the loop). A
deferred `KeyUnlock` is the last host call of every return after its `defer`.
`members[0]` is read only after `AddOrUpdate` has succeeded under INCR, when there
is exactly one member. -/
def handleZADD (ctx : Context) (cmd : List String) (server : Server) : Outcome :=
  if cmd.length < 4 then (.error WRONG_ARGS_RESPONSE, server) else
  let key := cmd.getD 1 ""
  let msi := membersStartIndex cmd
  if msi < 2 || (cmd.drop msi).length % 2 != 0 then
    (.error "score/member pairs must be float/string", server)
  else
  let members := parseMembers (cmd.drop msi)
  match parseOptions ((cmd.take msi).drop 2) ⟨none, none, none, none⟩ with
  | .error e => (.error e, server)
  | .ok o =>
    if server.KeyExists key then
      match server.KeyLock ctx key with
      | .error e => (.error e, server)
      | .ok s1 =>
        match s1.GetValue key with
        | .zset set =>
          match set.AddOrUpdate members o.updatePolicy o.comparison o.changed o.incr with
          | .error e => (.error e, s1.KeyUnlock key)
          | .ok (count, set1) =>
            if o.incr.isSome then
              let m := set1.Get ((members.headD ⟨"", .fin 0⟩).value)
              (.ok ("+" ++ Sprintf_f m.score ++ "\r\n\r\n"), (s1.mutated key set1).KeyUnlock key)
            else
              (.ok (":" ++ toString count ++ "\r\n\r\n"), (s1.mutated key set1).KeyUnlock key)
        | _ => (.error "value at %!s(MISSING) is not a sorted set", s1.KeyUnlock key)
    else
      match server.CreateKeyAndLock ctx key with
      | .error e => (.error e, server)
      | .ok s1 =>
        let set := NewSortedSet members
        (.ok (":" ++ toString set.Cardinality ++ "\r\n\r\n"),
          (s1.SetValue key (.zset set)).KeyUnlock key)

/-! ## handleZCARD, handleZCOUNT -/

/-- The handler `handleZCARD`. -/
def handleZCARD (ctx : Context) (cmd : List String) (server : Server) : Outcome :=
  if cmd.length != 2 then (.error WRONG_ARGS_RESPONSE, server) else
  let key := cmd.getD 1 ""
  if !server.KeyExists key then (.ok "*0\r\n\r\n", server) else
  match server.KeyRLock ctx key with
  | .error e => (.error e, server)
  | .ok s1 =>
    match s1.GetValue key with
    | .zset set => (.ok (":" ++ toString set.Cardinality ++ "\r\n\r\n"), s1.KeyRUnlock key)
    | _ => (.error ("value at " ++ key ++ " is not a sorted set"), s1.KeyRUnlock key)

/-- The type switch of `handleZCOUNT` on `cmd[2]`, giving `minimum`. -/
def zcountMinimum (t : String) : Except String Score :=
  match AdaptType t with
  | .str _ =>
    if ToLower t == "+inf" then .ok .posInf else .error "min constraint must be a double"
  | .float f => .ok f
  | .int n => .ok (.ofInt n)

/-- The type switch of `handleZCOUNT` on `cmd[3]`, giving `maximum`. -/
def zcountMaximum (t : String) : Except String Score :=
  match AdaptType t with
  | .str _ =>
    if ToLower t == "-inf" then .ok .negInf else .error "max constraint must be a double"
  | .float f => .ok f
  | .int n => .ok (.ofInt n)

/-- The handler `handleZCOUNT`. -/
def handleZCOUNT (ctx : Context) (cmd : List String) (server : Server) : Outcome :=
  if cmd.length != 4 then (.error WRONG_ARGS_RESPONSE, server) else
  let key := cmd.getD 1 ""
  match zcountMinimum (cmd.getD 2 "") with
  | .error e => (.error e, server)
  | .ok minimum =>
    match zcountMaximum (cmd.getD 3 "") with
    | .error e => (.error e, server)
    | .ok maximum =>
      if !server.KeyExists key then (.ok "*0\r\n\r\n", server) else
      match server.KeyRLock ctx key with
      | .error e => (.error e, server)
      | .ok s1 =>
        match s1.GetValue key with
        | .zset set =>
          let members := set.GetAll.filter (fun m => m.score.ge minimum && m.score.le maximum)
          (.ok (":" ++ toString members.length ++ "\r\n\r\n"), s1.KeyRUnlock key)
        | _ => (.error ("value at " ++ key ++ " is not a sorted set"), s1.KeyRUnlock key)

/-! ## handleZINCRBY -/

/-- The type switch of `handleZINCRBY` on `cmd[2]`, giving `increment`. -/
def zincrbyIncrement (t : String) : Except String Score :=
  match AdaptType t with
  | .str _ =>
    if EqualFold "-inf" (ToLower t) then .ok .negInf
    else if EqualFold "+inf" (ToLower t) then .ok .posInf
    else .error "increment must be a double"
  | .float f => .ok f
  | .int n => .ok (.ofInt n)

/-- The handler `handleZINCRBY`. -/
def handleZINCRBY (ctx : Context) (cmd : List String) (server : Server) : Outcome :=
  if cmd.length != 4 then (.error WRONG_ARGS_RESPONSE, server) else
  let key := cmd.getD 1 ""
  let member : Value := cmd.getD 3 ""
  match zincrbyIncrement (cmd.getD 2 "") with
  | .error e => (.error e, server)
  | .ok increment =>
    if server.KeyExists key then
      match server.KeyLock ctx key with
      | .error e => (.error e, server)
      | .ok s1 =>
        match s1.GetValue key with
        | .zset set =>
          match set.AddOrUpdate [⟨member, increment⟩] (some "xx") none none (some "incr") with
          | .error e => (.error e, s1.KeyUnlock key)
          | .ok (_, set1) =>
            (.ok ("+" ++ Sprintf_f (set1.Get member).score ++ "\r\n\r\n"),
              (s1.mutated key set1).KeyUnlock key)
        | _ => (.error ("value at " ++ key ++ " is not a sorted set"), s1.KeyUnlock key)
    else
      match server.CreateKeyAndLock ctx key with
      | .error e => (.error e, server)
      | .ok s1 =>
        let set := NewSortedSet [⟨member, increment⟩]
        (.ok ("+" ++ Sprintf_f (set.Get member).score ++ "\r\n\r\n"),
          (s1.SetValue key (.zset set)).KeyUnlock key)

/-! ## handleZRANK -/

/-- Go `slices.SortFunc`, as a sort by the comparator: `a` may stand before `b`
when `cmp a b <= 0`. -/
def SortFunc (cmp : MemberParam → MemberParam → Int) (l : List MemberParam) :
    List MemberParam :=
  l.insertionSort (fun a b => cmp a b ≤ 0)

/-- The comparator `handleZRANK` sorts with: descending scores when `cmd[0]` reads
`zrevrank`, ascending scores otherwise. -/
def rankCmp (name : String) (a b : MemberParam) : Int :=
  if EqualFold name "zrevrank" then Compare b.score a.score else Compare a.score b.score

/-- The loop `for i := 0; i < len(members); i++` of `handleZRANK`, from index i on:
the reply for the first member whose value is `member`, if there is one. -/
def rankLoop (member : String) (withscores : Bool) : List MemberParam → Nat → Option String
  | [], _ => none
  | m :: rest, i =>
    if m.value == member then
      if withscores then
        let score := FormatFloat m.score
        some ("*2\r\n:" ++ toString i ++ "\r\n$" ++ toString score.utf8ByteSize ++ "\r\n" ++
          score ++ "\r\n\r\n")
      else some (":" ++ toString i ++ "\r\n\r\n")
    else rankLoop member withscores rest (i + 1)

/-- The handler `handleZRANK`, serving both `zrank` and `zrevrank`. -/
def handleZRANK (ctx : Context) (cmd : List String) (server : Server) : Outcome :=
  if cmd.length < 3 || cmd.length > 4 then (.error WRONG_ARGS_RESPONSE, server) else
  let key := cmd.getD 1 ""
  let member := cmd.getD 2 ""
  let withscores := cmd.length == 4 && EqualFold (cmd.getD 3 "") "withscores"
  if !server.KeyExists key then (.ok "_\r\n\r\n", server) else
  match server.KeyRLock ctx key with
  | .error e => (.error e, server)
  | .ok s1 =>
    match s1.GetValue key with
    | .zset set =>
      let members := SortFunc (rankCmp (cmd.getD 0 "")) set.GetAll
      match rankLoop member withscores members 0 with
      | some reply => (.ok reply, s1.KeyRUnlock key)
      | none => (.ok "_\r\n\r\n", s1.KeyRUnlock key)
    | _ => (.error ("value at " ++ key ++ " is not a sorted set"), s1.KeyRUnlock key)

/-! ## Go standard library, continued -/

/-- Go `strings.ToUpper`: every rune mapped by `unicode.ToUpper`. -/
def ToUpper (s : String) : String := String.mk (s.data.map unicode.ToUpper)

/-- Go `slices.IndexFunc` from the index i on: the index of the first element that
satisfies f, or -1. -/
def indexFrom (f : String → Bool) : List String → Nat → Int
  | [], _ => -1
  | s :: rest, i => if f s then (i : Int) else indexFrom f rest (i + 1)

/-- Go `slices.IndexFunc`. -/
def IndexFunc (l : List String) (f : String → Bool) : Int := indexFrom f l 0

/-- Go `strconv.Atoi`: an optional sign and decimal digits, within the 64-bit `int`. -/
def Atoi (s : String) : Except String Int :=
  let body := match s.data with
    | '-' :: r => r
    | '+' :: r => r
    | r => r
  if allDigits body then
    let v : Int := if s.data.head? == some '-' then -(digitsToNat body : Int) else digitsToNat body
    if v < -9223372036854775808 || v > 9223372036854775807 then
      .error ("strconv.Atoi: parsing \"" ++ s ++ "\": value out of range")
    else .ok v
  else .error ("strconv.Atoi: parsing \"" ++ s ++ "\": invalid syntax")

/-- Modelled from the spec: `utils.Filter`, the elements of a slice that satisfy a
predicate, in their order. -/
def Filter (l : List String) (f : String → Bool) : List String := l.filter f

/-- The slice `cmd[1:idx]` of Go, for an index idx that is not negative. -/
def sliceFrom1 (cmd : List String) (idx : Int) : List String := (cmd.take idx.toNat).drop 1

namespace Score

/-- Go `a * b` on `float64` (finite products are exact here); zero times an
infinity is NaN. -/
def mul : Score → Score → Score
  | .nan, _ => .nan
  | _, .nan => .nan
  | .fin a, .fin b => .fin (a * b)
  | .fin a, .posInf => if a = 0 then .nan else if 0 < a then .posInf else .negInf
  | .fin a, .negInf => if a = 0 then .nan else if 0 < a then .negInf else .posInf
  | .posInf, .fin b => if b = 0 then .nan else if 0 < b then .posInf else .negInf
  | .negInf, .fin b => if b = 0 then .nan else if 0 < b then .negInf else .posInf
  | .posInf, .posInf => .posInf
  | .negInf, .negInf => .posInf
  | .posInf, .negInf => .negInf
  | .negInf, .posInf => .negInf

end Score

namespace SortedSet

/-- Modelled from the spec: `pop(count, policy)`: up to `count` members are removed
from the low end (policy min) or the high end (policy max) of the ordering and
returned as a new sorted set with their scores, together with the set that is
left; all members if there are fewer than `count`. A count of 0 or less is a
failure. -/
def Pop (s : SortedSet) (count : Int) (policy : String) :
    Except String (SortedSet × SortedSet) :=
  if count ≤ 0 then .error "count must be a positive integer"
  else
    let ordered := s.members.insertionSort (fun a b => memberLE a b = true)
    let popped :=
      if ToLower policy == "max" then ordered.drop (ordered.length - count.toNat)
      else ordered.take count.toNat
    .ok (⟨popped⟩, ⟨s.members.filter (fun m => !popped.any (fun p => p.value == m.value))⟩)

/-- Modelled from the spec: `subtract(base, others[])`: every member of the base
whose value does not appear in any of the others, with its score. -/
def Subtract (s : SortedSet) (others : List SortedSet) : SortedSet :=
  ⟨s.members.filter (fun m => !others.any (fun o => o.Has m.value))⟩

end SortedSet

/-- Modelled from the spec: the weighted score of a value in one input of a set
operation, `score × weight`; a NaN (zero times an infinity) counts as 0. -/
def weighted (set : SortedSet) (w : Score) (v : Value) : Score :=
  let x := (set.Get v).score.mul w
  if x.isNaN then .fin 0 else x

/-- Modelled from the spec: the aggregator of a set operation, Sum (the default),
Min or Max, applied to two scores. -/
def aggregate2 (aggregate : String) (a b : Score) : Score :=
  if ToLower aggregate == "min" then (if b.lt a then b else a)
  else if ToLower aggregate == "max" then (if a.lt b then b else a)
  else a.add b

/-- Modelled from the spec: the aggregate, in input order, of the weighted scores a
value has in the inputs that contain it. -/
def aggregateOver (aggregate : String) (v : Value) :
    List (SortedSet × Score) → Option Score → Option Score
  | [], acc => acc
  | (set, w) :: rest, acc =>
    if set.Has v then
      let x := weighted set w v
      aggregateOver aggregate v rest (some (match acc with
        | none => x
        | some a => aggregate2 aggregate a x))
    else aggregateOver aggregate v rest acc

/-- Modelled from the spec: the inputs of a set operation with their weights: the
given weights, or 1 for each input when none are given; a failure when the weights
are not as many as the inputs. -/
def withWeights (inputs : List SortedSet) (weights : List Score) :
    Except String (List (SortedSet × Score)) :=
  if weights.isEmpty then .ok (inputs.map (fun s => (s, Score.ofInt 1)))
  else if weights.length != inputs.length then
    .error "number of weights should match number of keys"
  else .ok (inputs.zip weights)

/-- Modelled from the spec: the result set of a set operation, from the values it
keeps: each with its aggregate score, in the enumeration order. -/
def combine (aggregate : String) (ins : List (SortedSet × Score)) (values : List Value) :
    SortedSet :=
  NewSortedSet (values.filterMap (fun v =>
    match aggregateOver aggregate v ins none with
    | some x => some ⟨v, x⟩
    | none => none))

namespace SortedSet

/-- Modelled from the spec: `intersect(base, others[], weights[], aggregator)`: a
member is in the result iff it appears in every input; its score is the aggregate
of its weighted scores over all inputs. -/
def Intersect (s : SortedSet) (others : List SortedSet) (weights : List Score)
    (aggregate : String) : Except String SortedSet :=
  match withWeights (s :: others) weights with
  | .error e => .error e
  | .ok ins =>
    .ok (combine aggregate ins
      ((s.members.map (fun m => m.value)).filter (fun v => others.all (fun o => o.Has v))))

/-- Modelled from the spec: `union(base, others[], weights[], aggregator)`: a member
is in the result if it appears in any input; its score is the aggregate of its
weighted scores over the inputs that contain it. -/
def Union (s : SortedSet) (others : List SortedSet) (weights : List Score)
    (aggregate : String) : Except String SortedSet :=
  match withWeights (s :: others) weights with
  | .error e => .error e
  | .ok ins =>
    .ok (combine aggregate ins
      (((s :: others).map (fun o => o.members.map (fun m => m.value))).flatten.eraseDups))

end SortedSet

/-! ## extractKeysWeightsAggregateWithScores -/

/-- The clause keywords of ZINTER, ZUNION and their STORE forms, in any letter case. -/
def isClause (s : String) : Bool :=
  EqualFold s "WEIGHTS" || EqualFold s "AGGREGATE" || EqualFold s "WITHSCORES"

/-- Modelled from the spec: the weights of a WEIGHTS clause, each a number. -/
def parseWeights : List String → Except String (List Score)
  | [] => .ok []
  | t :: rest =>
    match AdaptType t, parseWeights rest with
    | .str _, _ => .error "weights must be numbers"
    | _, .error e => .error e
    | .int n, .ok ws => .ok (Score.ofInt n :: ws)
    | .float f, .ok ws => .ok (f :: ws)

/-- Modelled from the spec: `extractKeysWeightsAggregateWithScores`, the argument
parser of ZINTER, ZUNION and their STORE forms (its code is outside this file).
After the key list come optional clauses in any order: `WEIGHTS w1 w2 …`,
`AGGREGATE SUM|MIN|MAX`, `WITHSCORES`; the key list ends at the first clause
keyword. It yields the keys, the weights, the aggregator (`sum` by default) and
whether WITHSCORES is given. -/
def extractKeysWeightsAggregateWithScores (cmd : List String) :
    Except String (List String × List Score × String × Bool) :=
  let first := IndexFunc cmd isClause
  if first != -1 && first < 2 then .error WRONG_ARGS_RESPONSE else
  let keys := if first == -1 then cmd.drop 1 else sliceFrom1 cmd first
  let weightsIdx := IndexFunc cmd (fun s => EqualFold s "WEIGHTS")
  let aggregateIdx := IndexFunc cmd (fun s => EqualFold s "AGGREGATE")
  let withscores := IndexFunc cmd (fun s => EqualFold s "WITHSCORES") != -1
  match (if weightsIdx == -1 then Except.ok []
    else parseWeights ((cmd.drop (weightsIdx.toNat + 1)).takeWhile (fun s => !isClause s))) with
  | .error e => .error e
  | .ok weights =>
    if aggregateIdx == -1 then .ok (keys, weights, "sum", withscores)
    else
      let a := ToLower (cmd.getD (aggregateIdx.toNat + 1) "")
      if Contains ["sum", "min", "max"] a then .ok (keys, weights, a, withscores)
      else .error "aggregate must be SUM, MIN, or MAX"

/-! ## The set-algebra read handlers -/

/-- The deferred function of the set-algebra handlers: every key recorded in the
`locks` map is read-unlocked. The map is a list of distinct keys here, in the order
in which they were recorded (Go ranges over a map in no fixed order). -/
def unlockAll (locks : List String) (s : Server) : Server :=
  locks.foldl (fun s key => s.KeyRUnlock key) s

/-- The statement `locks[key] = true`. -/
def recordLock (locks : List String) (key : String) : List String :=
  if locks.contains key then locks else locks ++ [key]

/-- The loop `for _, key := range keys` of `handleZDIFF`, `handleZINTER` and
`handleZUNION`, which differ in the text of the type error only: a key that does
not exist is skipped; an existing key is read-locked (an error ends the handler),
recorded in `locks`, and its value must be a sorted set, which is appended to
`sets`. The result is the error or the sets, with the host and the `locks` map. -/
def collectSets (ctx : Context) (typeError : String → String) :
    List String → Server → List String → List SortedSet →
      Except String (List SortedSet) × Server × List String
  | [], s, locks, sets => (.ok sets, s, locks)
  | key :: rest, s, locks, sets =>
    if !s.KeyExists key then collectSets ctx typeError rest s locks sets
    else
      match s.KeyRLock ctx key with
      | .error e => (.error e, s, locks)
      | .ok s1 =>
        match s1.GetValue key with
        | .zset set => collectSets ctx typeError rest s1 (recordLock locks key) (sets ++ [set])
        | _ => (.error (typeError key), s1, recordLock locks key)

/-- The reply loops `for i, m := range set.GetAll()`: the element text of each
member is appended, and the terminator after the member whose index is the
cardinality minus 1. -/
def appendMembers (elem : MemberParam → String) (card : Nat) :
    List MemberParam → Nat → String → String
  | [], _, res => res
  | m :: rest, i, res =>
    appendMembers elem card rest (i + 1)
      (if (i : Int) == (card : Int) - 1 then res ++ elem m ++ "\r\n\r\n" else res ++ elem m)

/-- The bulk string `\r\n$<len>\r\n<str>` the reply loops append. -/
def bulk (str : String) : String := "\r\n$" ++ toString str.utf8ByteSize ++ "\r\n" ++ str

/-- The element `<member> <score>` with the score in `%f` format, as a bulk string. -/
def bulkWithScore (m : MemberParam) : String := bulk (m.value ++ " " ++ Sprintf_f m.score)

/-- The handler `handleZDIFF`. -/
def handleZDIFF (ctx : Context) (cmd : List String) (server : Server) : Outcome :=
  if cmd.length < 3 then (.error WRONG_ARGS_RESPONSE, server) else
  let keys := Filter (cmd.drop 1) (fun s => !EqualFold s "withscores")
  let withscoresIndex := IndexFunc cmd (fun s => EqualFold s "withscores")
  if withscoresIndex > -1 && withscoresIndex < 2 then (.error WRONG_ARGS_RESPONSE, server) else
  match collectSets ctx (fun key => "value at error " ++ key ++ " is not a sorted set")
      keys server [] [] with
  | (.error e, s, locks) => (.error e, unlockAll locks s)
  | (.ok sets, s, locks) =>
    match sets with
    | [] => (.ok "*0\r\n\r\n", unlockAll locks s)
    | base :: others =>
      let diff := if others.isEmpty then base else base.Subtract others
      let includeScores := withscoresIndex != -1 && withscoresIndex >= 2
      let res := "*" ++ toString diff.Cardinality
      (.ok (appendMembers (fun m => if includeScores then bulkWithScore m else bulk m.value)
          diff.Cardinality diff.GetAll 0 res), unlockAll locks s)

/-- The handler `handleZINTER`. -/
def handleZINTER (ctx : Context) (cmd : List String) (server : Server) : Outcome :=
  if cmd.length < 2 then (.error WRONG_ARGS_RESPONSE, server) else
  match extractKeysWeightsAggregateWithScores cmd with
  | .error e => (.error e, server)
  | .ok (keys, weights, aggregate, withscores) =>
    match collectSets ctx (fun key => "value at " ++ key ++ " is not a sorted set")
        keys server [] [] with
    | (.error e, s, locks) => (.error e, unlockAll locks s)
    | (.ok sets, s, locks) =>
      match (match sets with
        | [] => Except.error "not enough sets to form an intersect"
        | base :: others =>
          if others.isEmpty then Except.ok base else base.Intersect others weights aggregate) with
      | .error e => (.error e, unlockAll locks s)
      | .ok intersect =>
        let res := "*" ++ toString intersect.Cardinality
        if intersect.Cardinality > 0 then
          (.ok (appendMembers (fun m => if withscores then bulkWithScore m else "\r\n" ++ m.value)
            intersect.Cardinality intersect.GetAll 0 res), unlockAll locks s)
        else (.ok (res ++ "\r\n\r\n"), unlockAll locks s)

/-- The handler `handleZUNION`. -/
def handleZUNION (ctx : Context) (cmd : List String) (server : Server) : Outcome :=
  if cmd.length < 2 then (.error WRONG_ARGS_RESPONSE, server) else
  match extractKeysWeightsAggregateWithScores cmd with
  | .error e => (.error e, server)
  | .ok (keys, weights, aggregate, withscores) =>
    match collectSets ctx (fun key => "value at key " ++ key ++ " is not a sorted set")
        keys server [] [] with
    | (.error e, s, locks) => (.error e, unlockAll locks s)
    | (.ok sets, s, locks) =>
      match (match sets with
        | [] => Except.error "no sorted sets to form union"
        | base :: others =>
          if others.isEmpty then Except.ok base else base.Union others weights aggregate) with
      | .error e => (.error e, unlockAll locks s)
      | .ok union =>
        let res := "*" ++ toString union.Cardinality
        (.ok (appendMembers (fun m => if withscores then bulkWithScore m else "\r\n+" ++ m.value)
          union.Cardinality union.GetAll 0 res), unlockAll locks s)

/-! ## handleZMPOP, handleZPOP -/

/-- The block "Parse COUNT from command" of `handleZMPOP`: the values of `count` and
`modifierIdx` after it, or the error it returns. -/
def zmpopCount (cmd : List String) : Except String (Int × Int) :=
  let countIdx := IndexFunc cmd (fun s => ToLower s == "count")
  if countIdx != -1 then
    if countIdx < 2 then .error WRONG_ARGS_RESPONSE
    else if countIdx == (cmd.length : Int) - 1 then .error "count must be a positive integer"
    else
      match Atoi (cmd.getD (countIdx + 1).toNat "") with
      | .error e => .error e
      | .ok c =>
        if c ≤ 0 then .error "count must be a positive integer" else .ok (c, countIdx)
  else .ok (1, -1)

/-- The block "Parse MIN/MAX from the command" of `handleZMPOP`, entered with the
value of `modifierIdx`: the values of `policy` and `modifierIdx` after it, or the
error it returns. -/
def zmpopPolicy (cmd : List String) (modifierIdx : Int) : Except String (String × Int) :=
  let policyIdx := IndexFunc cmd (fun s => Contains ["min", "max"] (ToLower s))
  if policyIdx != -1 then
    if policyIdx < 2 then .error WRONG_ARGS_RESPONSE
    else
      .ok (ToLower (cmd.getD policyIdx.toNat ""),
        if modifierIdx == -1 || policyIdx < modifierIdx then policyIdx else modifierIdx)
  else .ok ("min", modifierIdx)

/-- The argument parsing of `handleZMPOP`, from the arity check to the key list:
`count`, `policy` and `keys`, or the error returned. -/
def zmpopArgs (cmd : List String) : Except String (Int × String × List String) :=
  if cmd.length < 2 then .error WRONG_ARGS_RESPONSE else
  match zmpopCount cmd with
  | .error e => .error e
  | .ok (count, modifierIdx) =>
    match zmpopPolicy cmd modifierIdx with
    | .error e => .error e
    | .ok (policy, modifierIdx) =>
      .ok (count, policy, if modifierIdx == -1 then cmd.drop 1 else sliceFrom1 cmd modifierIdx)

/-- The reply of the pop handlers for a set of popped members: the array header and
each member with its score, the terminator after the last. -/
def poppedReply (popped : SortedSet) : String :=
  appendMembers bulkWithScore popped.Cardinality popped.GetAll 0
    ("*" ++ toString popped.Cardinality)

/-- The loop `for _, key := range keys` of `handleZMPOP`: a key that does not exist,
whose lock is not acquired, whose value is no sorted set or is an empty one, is
passed over; the first other key is popped from, and the handler returns. After
the loop the reply is the nil. -/
def zmpopLoop (ctx : Context) (count : Int) (policy : String) : List String → Server → Outcome
  | [], server => (.ok "+(nil)\r\n\r\n", server)
  | key :: rest, server =>
    if server.KeyExists key then
      match server.KeyLock ctx key with
      | .error _ => zmpopLoop ctx count policy rest server
      | .ok s1 =>
        match s1.GetValue key with
        | .zset v =>
          if v.Cardinality == 0 then zmpopLoop ctx count policy rest (s1.KeyUnlock key)
          else
            match v.Pop count policy with
            | .error e => (.error e, s1.KeyUnlock key)
            | .ok (popped, v1) =>
              if popped.Cardinality == 0 then
                (.ok "+(nil)\r\n\r\n", (s1.mutated key v1).KeyUnlock key)
              else (.ok (poppedReply popped), (s1.mutated key v1).KeyUnlock key)
        | _ => zmpopLoop ctx count policy rest (s1.KeyUnlock key)
    else zmpopLoop ctx count policy rest server

/-- The handler `handleZMPOP`. -/
def handleZMPOP (ctx : Context) (cmd : List String) (server : Server) : Outcome :=
  match zmpopArgs cmd with
  | .error e => (.error e, server)
  | .ok (count, policy, keys) => zmpopLoop ctx count policy keys server

/-- The handler `handleZPOP`, serving both `zpopmin` and `zpopmax`. -/
def handleZPOP (ctx : Context) (cmd : List String) (server : Server) : Outcome :=
  if cmd.length < 2 || cmd.length > 3 then (.error WRONG_ARGS_RESPONSE, server) else
  let key := cmd.getD 1 ""
  let policy := if EqualFold (cmd.getD 0 "") "zpopmax" then "max" else "min"
  match (if cmd.length == 3 then Atoi (cmd.getD 2 "") else Except.ok 1) with
  | .error e => (.error e, server)
  | .ok count =>
    if !server.KeyExists key then (.ok "+(nil)\r\n\r\n", server) else
    match server.KeyLock ctx key with
    | .error e => (.error e, server)
    | .ok s1 =>
      match s1.GetValue key with
      | .zset set =>
        match set.Pop count policy with
        | .error e => (.error e, s1.KeyUnlock key)
        | .ok (popped, set1) => (.ok (poppedReply popped), (s1.mutated key set1).KeyUnlock key)
      | _ => (.error ("value at key " ++ key ++ " is not a sorted set"), s1.KeyUnlock key)

/-! ## handleZREMRANGEBYRANK -/

/-- How a call of a handler ends: it returns, or it panics (a Go run-time error,
here an index out of range); the host is given as the call leaves it, the deferred
unlock included. -/
inductive Run where
  | returns (o : Outcome)
  | panics (server : Server)
  deriving DecidableEq

/-- A removal loop `for i := lo; i <= hi; i++` of `handleZREMRANGEBYRANK`, with
`todo` iterations left from the index i: `set.Remove(members[i].value)` and
`deletedCount += 1`. The result is the set and the count after the loop, or, when
some `members[i]` is out of range, the set as the panic finds it. -/
def removeRanks (members : List MemberParam) :
    Nat → Nat → SortedSet → Nat → Except SortedSet (SortedSet × Nat)
  | 0, _, set, deletedCount => .ok (set, deletedCount)
  | todo + 1, i, set, deletedCount =>
    match members[i]? with
    | none => .error set
    | some m => removeRanks members todo (i + 1) (set.Remove m.value).2 (deletedCount + 1)

/-- The handler `handleZREMRANGEBYRANK`. The bounds test is the one of the source:
`start < 0 || start > card-1 || stop < 0 || start > card-1`. -/
def handleZREMRANGEBYRANK (ctx : Context) (cmd : List String) (server : Server) : Run :=
  if cmd.length != 4 then .returns (.error WRONG_ARGS_RESPONSE, server) else
  let key := cmd.getD 1 ""
  match Atoi (cmd.getD 2 "") with
  | .error e => .returns (.error e, server)
  | .ok start0 =>
    match Atoi (cmd.getD 3 "") with
    | .error e => .returns (.error e, server)
    | .ok stop0 =>
      if !server.KeyExists key then .returns (.ok "_\r\n\r\n", server) else
      match server.KeyLock ctx key with
      | .error e => .returns (.error e, server)
      | .ok s1 =>
        match s1.GetValue key with
        | .zset set =>
          let card : Int := set.Cardinality
          let start := if start0 < 0 then start0 + card else start0
          let stop := if stop0 < 0 then stop0 + card else stop0
          if start < 0 || start > card - 1 || stop < 0 || start > card - 1 then
            .returns (.error "indices out of bounds", s1.KeyUnlock key)
          else
            let members := SortFunc (fun a b => Compare a.score b.score) set.GetAll
            let lo := if start < stop then start else stop
            let hi := if start < stop then stop else start
            match removeRanks members (hi - lo + 1).toNat lo.toNat set 0 with
            | .error set1 => .panics ((s1.mutated key set1).KeyUnlock key)
            | .ok (set1, deletedCount) =>
              .returns (.ok (":" ++ toString deletedCount ++ "\r\n\r\n"),
                (s1.mutated key set1).KeyUnlock key)
        | _ => .returns (.error ("value at " ++ key ++ " is not a sorted set"), s1.KeyUnlock key)

/-! ## Plugin.HandleCommand -/

/-- The handler functions `Plugin.HandleCommand` calls. -/
inductive Handler where
  | handleZADD | handleZCARD | handleZCOUNT | handleZDIFF | handleZDIFFSTORE
  | handleZINCRBY | handleZINTER | handleZINTERSTORE | handleZMPOP | handleZPOP
  | handleZMSCORE | handleZSCORE | handleZRANK | handleZREM | handleZRANDMEMBER
  | handleZREMRANGEBYLEX | handleZREMRANGEBYSCORE | handleZREMRANGEBYRANK
  | handleZRANGE | handleZRANGESTORE | handleZUNION | handleZUNIONSTORE
  deriving DecidableEq

/-- The `switch strings.ToLower(cmd[0])` of `Plugin.HandleCommand`, given the
lowered name: the handler of the matching `case`, or `none` for `default`. -/
def route (name : String) : Option Handler :=
  match name with
  | "zadd" => some .handleZADD
  | "zcard" => some .handleZCARD
  | "zcount" => some .handleZCOUNT
  | "zdiff" => some .handleZDIFF
  | "zdiffstore" => some .handleZDIFFSTORE
  | "zincrby" => some .handleZINCRBY
  | "zinter" => some .handleZINTER
  | "zinterstore" => some .handleZINTERSTORE
  | "zmpop" => some .handleZMPOP
  | "zpopmax" => some .handleZPOP
  | "zpopmin" => some .handleZPOP
  | "zmscore" => some .handleZMSCORE
  | "zscore" => some .handleZSCORE
  | "zrank" => some .handleZRANK
  | "zrevrank" => some .handleZRANK
  | "zrem" => some .handleZREM
  | "zrandmember" => some .handleZRANDMEMBER
  | "zremrangebylex" => some .handleZREMRANGEBYLEX
  | "zremrangebyscore" => some .handleZREMRANGEBYSCORE
  | "zremrangebyrank" => some .handleZREMRANGEBYRANK
  | "zrange" => some .handleZRANGE
  | "zrangestore" => some .handleZRANGESTORE
  | "zunion" => some .handleZUNION
  | "zunionstore" => some .handleZUNIONSTORE
  | _ => none

/-- The handler `handleZRANDMEMBER`. -/
def handleZRANDMEMBER (_ctx : Context) (_cmd : List String) (server : Server) : Outcome :=
  (.error "ZRANDMEMBER not implemented", server)

/-- The handler `handleZRANGE`. -/
def handleZRANGE (_ctx : Context) (_cmd : List String) (server : Server) : Outcome :=
  (.error "ZRANGE not implemented", server)

/-- The handler `handleZRANGESTORE`. -/
def handleZRANGESTORE (_ctx : Context) (_cmd : List String) (server : Server) : Outcome :=
  (.error "ZRANGESTORE not implemented", server)

/-- The method `Plugin.HandleCommand`: the `default` arm returns the error
`command unknown`; every other arm returns what its handler returns, the handler
bodies being given by `call`. Reading `cmd[0]` of an empty vector panics. -/
def HandleCommand (call : Handler → Context → List String → Server → Run)
    (ctx : Context) (cmd : List String) (server : Server) : Run :=
  match cmd with
  | [] => .panics server
  | name :: _ =>
    match route (ToLower name) with
    | none => .returns (.error "command unknown", server)
    | some h => call h ctx cmd server

/-! ## NewModule -/

set_option linter.dupNamespace false in
/-- Modelled from the spec: a descriptor of the command table (`utils.Command`,
declared outside this file), with the fields that bear on behaviour: the name, the
sync flag and the key extractor. The informational `Categories` and `Description`
are left out. -/
structure Command where
  Command : String
  Sync : Bool
  KeyExtractionFunc : List String → Except String (List String)

/-- The key extractor shared in shape by most descriptors: an arity test, then the
key `cmd[1:2]`. -/
def keyAfterName (wrongArity : Nat → Bool) (cmd : List String) : Except String (List String) :=
  if wrongArity cmd.length then .error WRONG_ARGS_RESPONSE else .ok ((cmd.take 2).drop 1)

/-- The clause keywords as the key extractors of `zinter` and `zinterstore` test them. -/
def isClauseKeyword (s : String) : Bool :=
  if EqualFold s "WEIGHTS" || EqualFold s "AGGREGATE" || EqualFold s "WITHSCORES" then true
  else false

/-- The `KeyExtractionFunc` of the `zinter` descriptor. -/
def zinterKeys (cmd : List String) : Except String (List String) :=
  if cmd.length < 2 then .error WRONG_ARGS_RESPONSE else
  let endIdx := IndexFunc (cmd.drop 1) isClauseKeyword
  if endIdx == -1 then .ok (cmd.drop 1)
  else if endIdx >= 1 then .ok (sliceFrom1 cmd (endIdx + 1))
  else .error WRONG_ARGS_RESPONSE

/-- The `KeyExtractionFunc` of the `zinterstore` descriptor. -/
def zinterstoreKeys (cmd : List String) : Except String (List String) :=
  if cmd.length < 2 then .error WRONG_ARGS_RESPONSE else
  let endIdx := IndexFunc (cmd.drop 1) isClauseKeyword
  if endIdx == -1 then .ok (cmd.drop 1)
  else if endIdx >= 2 then .ok (sliceFrom1 cmd endIdx)
  else .error WRONG_ARGS_RESPONSE

/-- The `KeyExtractionFunc` of the `zmpop` descriptor. -/
def zmpopKeys (cmd : List String) : Except String (List String) :=
  if cmd.length < 2 then .error WRONG_ARGS_RESPONSE else
  let endIdx := IndexFunc cmd (fun s => Contains ["MIN", "MAX", "COUNT"] (ToUpper s))
  if endIdx == -1 then .ok (cmd.drop 1)
  else if endIdx >= 2 then .ok (sliceFrom1 cmd endIdx)
  else .error WRONG_ARGS_RESPONSE

/-- The command table of `NewModule`, in the order of the source. -/
def NewModule : List Command :=
  [ ⟨"zadd", true, keyAfterName (fun n => n < 4)⟩,
    ⟨"zcard", false, fun cmd =>
      if cmd.length != 2 then .error WRONG_ARGS_RESPONSE else .ok (cmd.drop 1)⟩,
    ⟨"zcount", false, keyAfterName (fun n => n != 4)⟩,
    ⟨"zdiff", false, fun cmd =>
      if cmd.length < 2 then .error WRONG_ARGS_RESPONSE
      else .ok (Filter (cmd.drop 1) (fun elem => !EqualFold elem "WITHSCORES"))⟩,
    ⟨"zdiffstore", true, fun cmd =>
      if cmd.length < 3 then .error WRONG_ARGS_RESPONSE else .ok (cmd.drop 2)⟩,
    ⟨"zincrby", true, keyAfterName (fun n => n != 4)⟩,
    ⟨"zinter", false, zinterKeys⟩,
    ⟨"zinterstore", true, zinterstoreKeys⟩,
    ⟨"zmpop", true, zmpopKeys⟩,
    ⟨"zmscore", false, keyAfterName (fun n => n < 3)⟩,
    ⟨"zpopmax", true, keyAfterName (fun n => n < 2)⟩,
    ⟨"zpopmin", true, fun cmd =>
      if cmd.length < 2 then .error WRONG_ARGS_RESPONSE else .ok [cmd.getD 1 ""]⟩,
    ⟨"zrandmember", false, keyAfterName (fun n => n < 2)⟩,
    ⟨"zrank", false, keyAfterName (fun n => n < 3)⟩,
    ⟨"zrem", true, keyAfterName (fun n => n < 3)⟩,
    ⟨"zrevrank", false, keyAfterName (fun n => n < 3)⟩,
    ⟨"zscore", false, keyAfterName (fun n => n != 3)⟩,
    ⟨"zremrangebylex", true, fun _ => .ok []⟩,
    ⟨"zremrangebyrank", true, fun _ => .ok []⟩,
    ⟨"zremrangebyscore", true, fun _ => .ok []⟩,
    ⟨"zlexcount", true, fun _ => .ok []⟩,
    ⟨"zrange", true, fun _ => .ok []⟩,
    ⟨"zrangebylex", true, fun _ => .ok []⟩,
    ⟨"zrangebyscore", true, fun _ => .ok []⟩,
    ⟨"zrangestore", true, fun _ => .ok []⟩,
    ⟨"zunion", false, fun _ => .ok []⟩,
    ⟨"zunionstore", true, fun _ => .ok []⟩ ]

/-- The key extractor registered under a name, if the name is in the table. -/
def extractorOf (name : String) : Option (List String → Except String (List String)) :=
  (NewModule.find? (fun c => c.Command == name)).map (fun c => c.KeyExtractionFunc)

/-! ## The set-algebra STORE handlers -/

/-- The loop `for _, key := range keys` of `handleZDIFFSTORE`: a key that does not
exist is skipped; an existing key is read-locked (an error ends the handler) and
its value must be a sorted set, which is appended to `sets`. Nothing is written to
the `locks` map in this loop. The result is the error or the sets, with the host. -/
def zdiffstoreSets (ctx : Context) :
    List String → Server → List SortedSet → Except String (List SortedSet) × Server
  | [], s, sets => (.ok sets, s)
  | key :: rest, s, sets =>
    if s.KeyExists key then
      match s.KeyRLock ctx key with
      | .error e => (.error e, s)
      | .ok s1 =>
        match s1.GetValue key with
        | .zset set => zdiffstoreSets ctx rest s1 (sets ++ [set])
        | _ => (.error ("value at " ++ key ++ " is not a sorted set"), s1)
    else zdiffstoreSets ctx rest s sets

/-- The end of the three STORE handlers: the destination is write-locked (created
first if it does not exist; an error ends the handler before the unlock is
deferred), the result is written to it, and the reply is its cardinality. The
deferred calls run last registered first: the unlock of the destination, then the
read-unlocks of the keys recorded in `locks`. -/
def storeResult (ctx : Context) (destination : String) (result : SortedSet)
    (locks : List String) (s : Server) : Outcome :=
  match (if s.KeyExists destination then s.KeyLock ctx destination
    else s.CreateKeyAndLock ctx destination) with
  | .error e => (.error e, unlockAll locks s)
  | .ok s1 =>
    (.ok (":" ++ toString result.Cardinality ++ "\r\n\r\n"),
      unlockAll locks ((s1.SetValue destination (.zset result)).KeyUnlock destination))

/-- The handler `handleZDIFFSTORE`. Its `locks` map stays empty, the loop over the
keys never writing to it. -/
def handleZDIFFSTORE (ctx : Context) (cmd : List String) (server : Server) : Outcome :=
  if cmd.length < 3 then (.error WRONG_ARGS_RESPONSE, server) else
  let destination := cmd.getD 1 ""
  let keys := cmd.drop 2
  match zdiffstoreSets ctx keys server [] with
  | (.error e, s) => (.error e, unlockAll [] s)
  | (.ok sets, s) =>
    match sets with
    | [] => (.error "not enough sorted sets to calculate difference", unlockAll [] s)
    | base :: others =>
      storeResult ctx destination (if others.isEmpty then base else base.Subtract others) [] s

/-- The loop `for _, key := range keys` of `handleZINTERSTORE`: every key is
read-locked, without a test for its existence (an error ends the handler), recorded
in `locks`, and its value must be a sorted set, which is appended to `sets`. -/
def zinterstoreSets (ctx : Context) :
    List String → Server → List String → List SortedSet →
      Except String (List SortedSet) × Server × List String
  | [], s, locks, sets => (.ok sets, s, locks)
  | key :: rest, s, locks, sets =>
    match s.KeyRLock ctx key with
    | .error e => (.error e, s, locks)
    | .ok s1 =>
      match s1.GetValue key with
      | .zset set => zinterstoreSets ctx rest s1 (recordLock locks key) (sets ++ [set])
      | _ => (.error ("value at " ++ key ++ " is not a sorted set"), s1, recordLock locks key)

/-- The handler `handleZINTERSTORE`. `slices.DeleteFunc` removes from `cmd` every
token equal to the destination before the arguments are parsed. -/
def handleZINTERSTORE (ctx : Context) (cmd : List String) (server : Server) : Outcome :=
  if cmd.length < 3 then (.error WRONG_ARGS_RESPONSE, server) else
  let destination := cmd.getD 1 ""
  let cmd := cmd.filter (fun s => !(s == destination))
  match extractKeysWeightsAggregateWithScores cmd with
  | .error e => (.error e, server)
  | .ok (keys, weights, aggregate, _) =>
    match zinterstoreSets ctx keys server [] [] with
    | (.error e, s, locks) => (.error e, unlockAll locks s)
    | (.ok sets, s, locks) =>
      match (match sets with
        | [] => Except.error "not enough sets to form an intersect"
        | base :: others =>
          if others.isEmpty then Except.ok base else base.Intersect others weights aggregate) with
      | .error e => (.error e, unlockAll locks s)
      | .ok intersect => storeResult ctx destination intersect locks s

/-- The handler `handleZUNIONSTORE`. `slices.DeleteFunc` removes from `cmd` every
token equal to the destination before the arguments are parsed. -/
def handleZUNIONSTORE (ctx : Context) (cmd : List String) (server : Server) : Outcome :=
  if cmd.length < 3 then (.error WRONG_ARGS_RESPONSE, server) else
  let destination := cmd.getD 1 ""
  let cmd := cmd.filter (fun s => !(s == destination))
  match extractKeysWeightsAggregateWithScores cmd with
  | .error e => (.error e, server)
  | .ok (keys, weights, aggregate, _) =>
    match collectSets ctx (fun key => "value at " ++ key ++ " is not a sorted set")
        keys server [] [] with
    | (.error e, s, locks) => (.error e, unlockAll locks s)
    | (.ok sets, s, locks) =>
      match (match sets with
        | [] => Except.error "no sorted sets to form union"
        | base :: others =>
          if others.isEmpty then Except.ok base else base.Union others weights aggregate) with
      | .error e => (.error e, unlockAll locks s)
      | .ok union => storeResult ctx destination union locks s

/-! ## The lock state of the host -/

/-- The number of read locks on a key that the traced calls acquired. -/
def readLocks (trace : List HostCall) (key : String) : Nat :=
  trace.count (.KeyRLock key)

/-- The number of read-unlock calls on a key among the traced calls. -/
def readUnlocks (trace : List HostCall) (key : String) : Nat :=
  trace.count (.KeyRUnlock key)

/-- The number of write locks on a key that the traced calls acquired, by `KeyLock`
or by `CreateKeyAndLock`. -/
def writeLocks (trace : List HostCall) (key : String) : Nat :=
  trace.count (.KeyLock key) + trace.count (.CreateKeyAndLock key)

/-- The number of write-unlock calls on a key among the traced calls. -/
def writeUnlocks (trace : List HostCall) (key : String) : Nat :=
  trace.count (.KeyUnlock key)

/-! ## Vocabulary of the claims and sample hosts -/

/-- The update-policy options of ZADD, as `handleZADD` tests them. -/
def isPolicy (t : String) : Bool := Contains ["xx", "nx"] (ToLower t)

/-- The comparison options of ZADD, as `handleZADD` tests them. -/
def isComparison (t : String) : Bool := Contains ["gt", "lt"] (ToLower t)

/-- The allowed set of ZADD flags: NX, XX, GT, LT, CH, INCR, ignoring letter case. -/
def isFlag (t : String) : Bool := ["nx", "xx", "gt", "lt", "ch", "incr"].contains (ToLower t)

/-- The option CH of ZADD, as `handleZADD` tests it. -/
def isChanged (t : String) : Bool := EqualFold t "ch"

/-- The option INCR of ZADD, as `handleZADD` tests it. -/
def isIncr (t : String) : Bool := EqualFold t "incr"

/-- The tokens the option loop of `handleZADD` accepts: NX, XX, GT or LT after
`strings.ToLower`, CH or INCR under `strings.EqualFold`. -/
def isOption (t : String) : Bool := isPolicy t || isComparison t || isChanged t || isIncr t

/-- A context under which every lock is acquired. -/
def granted : Context := fun _ => true

/-- A host with an empty keyspace. -/
def noKeys : Server := ⟨[], []⟩

/-- A host whose key `k` holds the sorted set a:1, b:2, c:3. -/
def hostK : Server :=
  ⟨[("k", .zset ⟨[⟨"a", .ofInt 1⟩, ⟨"b", .ofInt 2⟩, ⟨"c", .ofInt 3⟩]⟩)], []⟩

/-- The place of a score in the total order `cmp.Compare` sorts by: NaN first, then
negative infinity, the finite values in their order, and positive infinity. -/
def Score.key : Score → ℕ ×ₗ ℚ
  | .nan => toLex (1, 0)
  | .negInf => toLex (2, 0)
  | .fin q => toLex (3, q)
  | .posInf => toLex (4, 0)


/-- The modifiers of ZMPOP: a token equal, ignoring letter case, to MIN, MAX or COUNT. -/
def isModifier (s : String) : Bool := Contains ["min", "max", "count"] (ToLower s)

/-- A token that holds neither U+0130 (capital I with a dot above) nor U+0131 (small i
without a dot), the two runes that `unicode.ToLower` and `unicode.ToUpper` take to an
ASCII letter of the words MIN, MAX and COUNT from one side only. -/
def plainCase (t : String) : Bool := t.data.all (fun c => c.toNat != 0x130 && c.toNat != 0x131)

/-- A host whose key `e` holds an empty sorted set. -/
def hostE : Server := ⟨[("e", .zset ⟨[]⟩)], []⟩

/-- A host whose key `e` holds an empty sorted set and whose key `m\u0131n` (with the
rune U+0131, the small i without a dot) holds a:1. -/
def hostEI : Server :=
  ⟨[("e", .zset ⟨[]⟩), ("m\u0131n", .zset ⟨[⟨"a", .ofInt 1⟩]⟩)], []⟩


/-- What `caseTo` returns: the rune itself, or its image by a run of the table that
holds it. -/
theorem caseTo_spec (table : List CaseRange) (r : Nat) :
    caseTo table r = r ∨
      ∃ e ∈ table, e.1 ≤ r ∧ r ≤ e.2.1 ∧ caseTo table r = e.2.2.2 + (r - e.1) := by
  unfold caseTo
  cases h : table.find? (fun e => decide (e.1 ≤ r) && decide (r ≤ e.2.1) &&
      (r - e.1) % e.2.2.1 == 0) with
  | none => left; rfl
  | some e =>
    right
    have hp := List.find?_some h
    simp only [Bool.and_eq_true, decide_eq_true_eq] at hp
    exact ⟨e, List.mem_of_find?_eq_some h, hp.1.1, hp.1.2, rfl⟩

/-- In a table whose runs stay on one side of the ASCII range, two single runes apart,
a rune outside ASCII other than these two is mapped outside ASCII. -/
theorem caseTo_nonascii (table : List CaseRange) (s1 s2 : Nat)
    (h : ∀ e ∈ table, e.2.1 < 128 ∨ (128 ≤ e.1 ∧ 128 ≤ e.2.2.2) ∨
      (e.1 = e.2.1 ∧ (e.1 = s1 ∨ e.1 = s2)))
    (r : Nat) (hr : 128 ≤ r) (h1 : r ≠ s1) (h2 : r ≠ s2) : 128 ≤ caseTo table r := by
  rcases caseTo_spec table r with h0 | ⟨e, he, hlo, hhi, h0⟩
  · omega
  · rcases h e he with h3 | h3 | h3 <;> omega

set_option maxRecDepth 100000 in
theorem lowerRanges_ascii : ∀ e ∈ lowerRanges,
    e.2.1 < 128 ∨ (128 ≤ e.1 ∧ 128 ≤ e.2.2.2) ∨
      (e.1 = e.2.1 ∧ (e.1 = 0x130 ∨ e.1 = 0x212A)) := by
  decide

set_option maxRecDepth 100000 in
theorem upperRanges_ascii : ∀ e ∈ upperRanges,
    e.2.1 < 128 ∨ (128 ≤ e.1 ∧ 128 ≤ e.2.2.2) ∨
      (e.1 = e.2.1 ∧ (e.1 = 0x131 ∨ e.1 = 0x17F)) := by
  decide

set_option maxRecDepth 100000 in
theorem foldRanges_ascii : ∀ e ∈ foldRanges,
    e.2.1 < 128 ∨ (128 ≤ e.1 ∧ 128 ≤ e.2.2.2) ∨
      (e.1 = e.2.1 ∧ (e.1 = 0x17F ∨ e.1 = 0x212A)) := by
  decide

/-- A code point outside ASCII is not turned into an ASCII letter by `Char.ofNat`. -/
theorem ofNat_nonascii (n : Nat) (h : 128 ≤ n) :
    (Char.ofNat n).toNat = 0 ∨ 128 ≤ (Char.ofNat n).toNat := by
  by_cases hv : n.isValidChar
  · right
    have : (Char.ofNat n).toNat = n := by
      simp only [Char.ofNat, hv, dite_true]
      rfl
    omega
  · left
    simp only [Char.ofNat, hv, dite_false]
    rfl

/-- An ASCII letter is no image of a rune outside ASCII, the two exceptions apart. -/
theorem not_letter (l x : Char) (hl : l.toNat < 128) (hl0 : l.toNat ≠ 0)
    (hx : x.toNat = 0 ∨ 128 ≤ x.toNat) : x ≠ l := by
  intro e
  subst e
  omega

/-- Beyond ASCII `unicode.ToLower` yields an ASCII letter at U+0130 (the letter i) and
at U+212A (the letter k) only. -/
theorem ToLower_eq_ascii (c l : Char) (hc : ¬ c.toNat < 128) (hl : l.toNat < 128)
    (hl0 : l.toNat ≠ 0) :
    unicode.ToLower c = l ↔ (c.toNat = 0x130 ∧ l = 'i') ∨ (c.toNat = 0x212A ∧ l = 'k') := by
  have e : unicode.ToLower c = Char.ofNat (caseTo lowerRanges c.toNat) := by
    unfold unicode.ToLower
    rw [if_neg hc]
  rw [e]
  by_cases h1 : c.toNat = 0x130
  · rw [h1, show Char.ofNat (caseTo lowerRanges 0x130) = 'i' by decide]
    exact ⟨fun h => Or.inl ⟨rfl, h.symm⟩, fun h => by
      rcases h with h | h
      · exact h.2.symm
      · exact absurd h.1 (by decide)⟩
  · by_cases h2 : c.toNat = 0x212A
    · rw [h2, show Char.ofNat (caseTo lowerRanges 0x212A) = 'k' by decide]
      exact ⟨fun h => Or.inr ⟨rfl, h.symm⟩, fun h => by
        rcases h with h | h
        · exact absurd h.1 (by decide)
        · exact h.2.symm⟩
    · constructor
      · intro h
        exact absurd h (not_letter l _ hl hl0 (ofNat_nonascii _
          (caseTo_nonascii lowerRanges _ _ lowerRanges_ascii c.toNat (by omega) h1 h2)))
      · intro h
        rcases h with h | h
        · exact absurd h.1 h1
        · exact absurd h.1 h2

/-- Beyond ASCII `unicode.ToUpper` yields an ASCII letter at U+0131 (the letter I) and
at U+017F (the letter S) only. -/
theorem ToUpper_eq_ascii (c l : Char) (hc : ¬ c.toNat < 128) (hl : l.toNat < 128)
    (hl0 : l.toNat ≠ 0) :
    unicode.ToUpper c = l ↔ (c.toNat = 0x131 ∧ l = 'I') ∨ (c.toNat = 0x17F ∧ l = 'S') := by
  have e : unicode.ToUpper c = Char.ofNat (caseTo upperRanges c.toNat) := by
    unfold unicode.ToUpper
    rw [if_neg hc]
  rw [e]
  by_cases h1 : c.toNat = 0x131
  · rw [h1, show Char.ofNat (caseTo upperRanges 0x131) = 'I' by decide]
    exact ⟨fun h => Or.inl ⟨rfl, h.symm⟩, fun h => by
      rcases h with h | h
      · exact h.2.symm
      · exact absurd h.1 (by decide)⟩
  · by_cases h2 : c.toNat = 0x17F
    · rw [h2, show Char.ofNat (caseTo upperRanges 0x17F) = 'S' by decide]
      exact ⟨fun h => Or.inr ⟨rfl, h.symm⟩, fun h => by
        rcases h with h | h
        · exact absurd h.1 (by decide)
        · exact h.2.symm⟩
    · constructor
      · intro h
        exact absurd h (not_letter l _ hl hl0 (ofNat_nonascii _
          (caseTo_nonascii upperRanges _ _ upperRanges_ascii c.toNat (by omega) h1 h2)))
      · intro h
        rcases h with h | h
        · exact absurd h.1 h1
        · exact absurd h.1 h2

/-- Beyond ASCII the simple case folding yields an ASCII letter at U+017F (the letter s)
and at U+212A (the letter k) only. -/
theorem foldRune_eq_ascii (c l : Char) (hc : ¬ c.toNat < 128) (hl : l.toNat < 128)
    (hl0 : l.toNat ≠ 0) :
    foldRune c = l ↔ (c.toNat = 0x17F ∧ l = 's') ∨ (c.toNat = 0x212A ∧ l = 'k') := by
  have e : foldRune c = Char.ofNat (caseTo foldRanges c.toNat) := by
    unfold foldRune
    rw [if_neg hc]
  rw [e]
  by_cases h1 : c.toNat = 0x17F
  · rw [h1, show Char.ofNat (caseTo foldRanges 0x17F) = 's' by decide]
    exact ⟨fun h => Or.inl ⟨rfl, h.symm⟩, fun h => by
      rcases h with h | h
      · exact h.2.symm
      · exact absurd h.1 (by decide)⟩
  · by_cases h2 : c.toNat = 0x212A
    · rw [h2, show Char.ofNat (caseTo foldRanges 0x212A) = 'k' by decide]
      exact ⟨fun h => Or.inr ⟨rfl, h.symm⟩, fun h => by
        rcases h with h | h
        · exact absurd h.1 (by decide)
        · exact h.2.symm⟩
    · constructor
      · intro h
        exact absurd h (not_letter l _ hl hl0 (ofNat_nonascii _
          (caseTo_nonascii foldRanges _ _ foldRanges_ascii c.toNat (by omega) h1 h2)))
      · intro h
        rcases h with h | h
        · exact absurd h.1 h1
        · exact absurd h.1 h2

/-! ### Letter case: `strings.ToUpper`, `strings.ToLower` and `strings.EqualFold` -/

/-- A rune that the simple case folding takes to an ASCII letter other than s is taken
to that letter by `unicode.ToLower`. -/
theorem ToLower_of_foldRune (l : Char) (hl : l.toNat < 128) (hl0 : l.toNat ≠ 0)
    (hs : l ≠ 's') (c : Char) (h : foldRune c = l) : unicode.ToLower c = l := by
  by_cases hc : c.toNat < 128
  · unfold unicode.ToLower
    unfold foldRune at h
    rw [if_pos hc] at h ⊢
    exact h
  · rcases (foldRune_eq_ascii c l hc hl hl0).1 h with h1 | h1
    · exact absurd h1.2 hs
    · exact (ToLower_eq_ascii c l hc hl hl0).2 (Or.inr h1)

/-- A rune that `unicode.ToLower` takes to an ASCII letter other than i is taken to that
letter by the simple case folding. -/
theorem foldRune_of_ToLower (l : Char) (hl : l.toNat < 128) (hl0 : l.toNat ≠ 0)
    (hi : l ≠ 'i') (c : Char) (h : unicode.ToLower c = l) : foldRune c = l := by
  by_cases hc : c.toNat < 128
  · unfold foldRune
    unfold unicode.ToLower at h
    rw [if_pos hc] at h ⊢
    exact h
  · rcases (ToLower_eq_ascii c l hc hl hl0).1 h with h1 | h1
    · exact absurd h1.2 hi
    · exact (foldRune_eq_ascii c l hc hl hl0).2 (Or.inr h1)

theorem map_ToLower_of_foldRune (w : List Char)
    (hw : ∀ l ∈ w, l.toNat < 128 ∧ l.toNat ≠ 0 ∧ l ≠ 's') :
    ∀ cs : List Char, cs.map foldRune = w → cs.map unicode.ToLower = w := by
  induction w with
  | nil => intro cs; cases cs <;> simp
  | cons l w ih =>
    intro cs h
    cases cs with
    | nil => simp at h
    | cons c cs =>
      obtain ⟨h1, h2, h3⟩ := hw l (List.mem_cons_self _ _)
      simp only [List.map_cons, List.cons.injEq] at h ⊢
      exact ⟨ToLower_of_foldRune l h1 h2 h3 c h.1,
        ih (fun x hx => hw x (List.mem_cons_of_mem _ hx)) cs h.2⟩

theorem map_foldRune_of_ToLower (w : List Char)
    (hw : ∀ l ∈ w, l.toNat < 128 ∧ l.toNat ≠ 0 ∧ l ≠ 'i') :
    ∀ cs : List Char, cs.map unicode.ToLower = w → cs.map foldRune = w := by
  induction w with
  | nil => intro cs; cases cs <;> simp
  | cons l w ih =>
    intro cs h
    cases cs with
    | nil => simp at h
    | cons c cs =>
      obtain ⟨h1, h2, h3⟩ := hw l (List.mem_cons_self _ _)
      simp only [List.map_cons, List.cons.injEq] at h ⊢
      exact ⟨foldRune_of_ToLower l h1 h2 h3 c h.1,
        ih (fun x hx => hw x (List.mem_cons_of_mem _ hx)) cs h.2⟩

/-- For a word w of lower-case ASCII letters other than s, a string equal to w under
`strings.EqualFold` is turned into w by `strings.ToLower`. -/
theorem ToLower_of_EqualFold (s w : String)
    (hw : ∀ l ∈ w.data, l.toNat < 128 ∧ l.toNat ≠ 0 ∧ l ≠ 's')
    (hfix : w.data.map foldRune = w.data) (h : EqualFold s w = true) : ToLower s = w := by
  unfold EqualFold at h
  rw [hfix, beq_iff_eq] at h
  unfold ToLower
  rw [String.ext_iff]
  exact map_ToLower_of_foldRune w.data hw s.data h

/-- For a word w of lower-case ASCII letters other than i, a string that
`strings.ToLower` turns into w is equal to w under `strings.EqualFold`. -/
theorem EqualFold_of_ToLower (s w : String)
    (hw : ∀ l ∈ w.data, l.toNat < 128 ∧ l.toNat ≠ 0 ∧ l ≠ 'i')
    (hfix : w.data.map foldRune = w.data) (h : ToLower s = w) : EqualFold s w = true := by
  unfold ToLower at h
  rw [String.ext_iff] at h
  unfold EqualFold
  rw [hfix, beq_iff_eq]
  exact map_foldRune_of_ToLower w.data hw s.data h

/-- Strings equal under `strings.EqualFold` have as many runes. -/
theorem EqualFold_length (s w : String) (h : EqualFold s w = true) :
    s.data.length = w.data.length := by
  unfold EqualFold at h
  have := congrArg List.length (beq_iff_eq.1 h)
  simpa using this

/-! ### The option loop and the scan of handleZADD -/

theorem EqualFold_ch (t : String) (h : EqualFold t "ch" = true) : ToLower t = "ch" :=
  ToLower_of_EqualFold t "ch" (by decide) (by decide) h

theorem EqualFold_incr (t : String) (h : EqualFold t "incr" = true) : ToLower t = "incr" :=
  ToLower_of_EqualFold t "incr" (by decide) (by decide) h

/-- A token the option loop accepts is, after `strings.ToLower`, one of the six words. -/
theorem isFlag_of_isOption (t : String) (h : isOption t = true) : isFlag t = true := by
  unfold isOption at h
  simp only [Bool.or_eq_true] at h
  rcases h with ((h | h) | h) | h
  · unfold isPolicy Contains at h
    unfold isFlag
    generalize ToLower t = u at h ⊢
    simp only [List.contains_cons, List.contains_nil, Bool.or_false, Bool.or_eq_true,
      beq_iff_eq] at h
    rcases h with h | h <;> subst h <;> decide
  · unfold isComparison Contains at h
    unfold isFlag
    generalize ToLower t = u at h ⊢
    simp only [List.contains_cons, List.contains_nil, Bool.or_false, Bool.or_eq_true,
      beq_iff_eq] at h
    rcases h with h | h <;> subst h <;> decide
  · rw [isFlag, EqualFold_ch t h]; decide
  · rw [isFlag, EqualFold_incr t h]; decide

/-- A token outside the allowed set makes the option loop fail. -/
theorem parseOptions_error (flags : List String) :
    ∀ o : ZAddOptions, (∃ t ∈ flags, isFlag t = false) →
      ∃ e, parseOptions flags o = .error e := by
  induction flags with
  | nil => intro o h; obtain ⟨t, ht, _⟩ := h; cases ht
  | cons t rest ih =>
    intro o h
    have hrest : (∃ u ∈ rest, isFlag u = false) ∨ isOption t = false := by
      obtain ⟨u, hu, hbad⟩ := h
      rcases List.mem_cons.1 hu with rfl | hu
      · right
        cases e : isOption u with
        | false => rfl
        | true => rw [isFlag_of_isOption u e] at hbad; cases hbad
      · exact Or.inl ⟨u, hu, hbad⟩
    by_cases hp : Contains ["xx", "nx"] (ToLower t) = true
    · rcases hrest with hr | hb
      · rw [parseOptions, if_pos hp]; exact ih _ hr
      · rw [isOption, show isPolicy t = true from hp] at hb; simp at hb
    · by_cases hc : Contains ["gt", "lt"] (ToLower t) = true
      · rcases hrest with hr | hb
        · rw [parseOptions, if_neg hp, if_pos hc]; exact ih _ hr
        · rw [isOption, show isComparison t = true from hc] at hb; simp at hb
      · by_cases hch : EqualFold t "ch" = true
        · rcases hrest with hr | hb
          · rw [parseOptions, if_neg hp, if_neg hc, if_pos hch]; exact ih _ hr
          · rw [isOption, show isChanged t = true from hch] at hb; simp at hb
        · by_cases hin : EqualFold t "incr" = true
          · rcases hrest with hr | hb
            · rw [parseOptions, if_neg hp, if_neg hc, if_neg hch, if_pos hin]; exact ih _ hr
            · rw [isOption, show isIncr t = true from hin] at hb; simp at hb
          · exact ⟨_, by rw [parseOptions, if_neg hp, if_neg hc, if_neg hch, if_neg hin]⟩

theorem findMembersStart_of_ne_zero (l : List String) (i m : Nat) (hm : m ≠ 0) :
    findMembersStart l i m = m := by
  cases l with
  | nil => rfl
  | cons a rest => simp [findMembersStart, hm]

/-- The scan stops at the first score at or after a position that is not 0. -/
theorem findMembersStart_first (l : List String) :
    ∀ (i k : Nat) (t : String), l[k]? = some t → isScore t = true →
      (∀ n u, n < k → l[n]? = some u → isScore u = false) → i + k ≠ 0 →
      findMembersStart l i 0 = i + k := by
  induction l with
  | nil => intro i k t h; simp at h
  | cons a rest ih =>
    intro i k t hk ht hbefore hne
    cases k with
    | zero =>
      have ha : a = t := by simpa using hk
      subst ha
      have hi : i ≠ 0 := by simpa using hne
      simp [findMembersStart, ht, findMembersStart_of_ne_zero _ _ _ hi]
    | succ k =>
      have ha : isScore a = false := hbefore 0 a (Nat.succ_pos k) (by simp)
      have hk' : rest[k]? = some t := by simpa using hk
      have := ih (i + 1) k t hk' ht
        (fun n u hn hu => hbefore (n + 1) u (Nat.succ_lt_succ hn) (by simpa using hu))
        (by omega)
      simp [findMembersStart, ha, this]
      omega

/-- The start of the pairs is the first index from 1 on whose token is a score. -/
theorem membersStartIndex_first (cmd : List String) (f : Nat) (t : String)
    (hf : cmd[f]? = some t) (ht : isScore t = true) (h1 : 1 ≤ f)
    (hbefore : ∀ n u, 1 ≤ n → n < f → cmd[n]? = some u → isScore u = false) :
    membersStartIndex cmd = f := by
  cases cmd with
  | nil => simp at hf
  | cons c rest =>
    obtain ⟨k, rfl⟩ : ∃ k, f = k + 1 := ⟨f - 1, by omega⟩
    have hk : rest[k]? = some t := by simpa using hf
    have := findMembersStart_first rest 1 k t hk ht
      (fun n u hn hu => hbefore (n + 1) u (by omega) (by omega) (by simpa using hu))
      (by omega)
    unfold membersStartIndex
    rw [findMembersStart]
    simp [this]
    omega

/-- Claim C2: on a ZADD command vector of length at least 4, let f be the first index
after the key (the least index from 2 on) whose token is a score; if some token at an
index j strictly between the key (index 1) and f is not, ignoring letter case, one
of NX, XX, GT, LT, CH, INCR, then `handleZADD` returns an error and hands back the
host exactly as it got it: no lock, no key creation, no value write. -/
theorem handleZADD_rejects_unknown_flag (ctx : Context) (cmd : List String) (server : Server)
    (hlen : 4 ≤ cmd.length) (f j : Nat) (tf tj : String)
    (hf : cmd[f]? = some tf) (hscore : isScore tf = true)
    (hfirst : ∀ i t, 2 ≤ i → i < f → cmd[i]? = some t → isScore t = false)
    (hj : 1 < j) (hjf : j < f) (htj : cmd[j]? = some tj) (hbad : isFlag tj = false) :
    ∃ e, handleZADD ctx cmd server = (Except.error e, server) := by
  have hlen' : ¬ cmd.length < 4 := by omega
  obtain ⟨key, hkey⟩ : ∃ key, cmd[1]? = some key :=
    ⟨cmd[1], List.getElem?_eq_getElem (by omega)⟩
  by_cases hk : isScore key = true
  · have hmsi : membersStartIndex cmd = 1 :=
      membersStartIndex_first cmd 1 key hkey hk (le_refl 1) (fun n u h1 h2 => by omega)
    exact ⟨"score/member pairs must be float/string", by simp [handleZADD, hlen', hmsi]⟩
  · have hk' : isScore key = false := by simpa using hk
    have hmsi : membersStartIndex cmd = f :=
      membersStartIndex_first cmd f tf hf hscore (by omega) (fun n u h1 h2 hu => by
        rcases Nat.eq_or_lt_of_le h1 with h | h
        · subst h; rw [hkey] at hu; cases hu; exact hk'
        · exact hfirst n u h h2 hu)
    have hmem : ∃ t ∈ (cmd.take f).drop 2, isFlag t = false := by
      refine ⟨tj, ?_, hbad⟩
      apply List.getElem?_mem (n := j - 2)
      rw [List.getElem?_drop, List.getElem?_take_of_lt (by omega)]
      rw [show 2 + (j - 2) = j by omega]
      exact htj
    obtain ⟨e, he⟩ := parseOptions_error _ ⟨none, none, none, none⟩ hmem
    by_cases hodd : (f < 2 || (cmd.drop f).length % 2 != 0) = true
    · refine ⟨"score/member pairs must be float/string", ?_⟩
      unfold handleZADD
      rw [if_neg hlen']
      simp only [hmsi]
      rw [if_pos hodd]
    · refine ⟨e, ?_⟩
      unfold handleZADD
      rw [if_neg hlen']
      simp only [hmsi]
      rw [if_neg hodd, he]

/-- Claim C2 at `ZADD k NX bogus 1 a`: an error, and the host is untouched. -/
theorem handleZADD_rejects_unknown_flag_witness :
    isScore "1" = true ∧ isFlag "bogus" = false ∧
    ∃ e, handleZADD granted ["ZADD", "k", "NX", "bogus", "1", "a"] hostK =
      (Except.error e, hostK) :=
  ⟨by decide, by decide,
    handleZADD_rejects_unknown_flag granted ["ZADD", "k", "NX", "bogus", "1", "a"] hostK
      (by decide) 4 3 "1" "bogus" (by decide) (by decide)
      (fun i t h2 h4 ht => by
        have hi : i = 2 ∨ i = 3 := by omega
        rcases hi with rfl | rfl
        · cases ht; decide
        · cases ht; decide)
      (by decide) (by decide) (by decide) (by decide)⟩

/-- Claim C3 at its witness `ZADD k 1 a foo b`: the pairs start at index 2, `foo`
stands in a score position and is no score, and yet `handleZADD` returns the reply
`:1`, having stored the set with the single member a; the pair `foo b` is skipped. -/
theorem handleZADD_skips_non_score :
    isScore "foo" = false ∧ membersStartIndex ["ZADD", "k", "1", "a", "foo", "b"] = 2 ∧
    handleZADD granted ["ZADD", "k", "1", "a", "foo", "b"] noKeys =
      (Except.ok ":1\r\n\r\n",
        ⟨[("k", .zset ⟨[⟨"a", .ofInt 1⟩]⟩)],
          [.CreateKeyAndLock "k", .SetValue "k", .KeyUnlock "k"]⟩) := by
  decide

/-- Claim C4 at its witness `ZADD 1 2 a`: the scan stops on the key at index 1, not on
the first score after the key at index 2, and the command is rejected. -/
theorem handleZADD_rejects_numeric_key :
    membersStartIndex ["ZADD", "1", "2", "a"] = 1 ∧
    handleZADD granted ["ZADD", "1", "2", "a"] noKeys =
      (Except.error "score/member pairs must be float/string", noKeys) := by
  decide

/-- Claim C5 at `ZADD k INCR 5 d`: when the key does not exist the reply is the
integer count `:1`, not the score reply `+5.000000`; when the key holds a sorted set
(here without the member d) the reply is the score reply. -/
theorem handleZADD_incr_new_key_replies_count :
    handleZADD granted ["ZADD", "k", "INCR", "5", "d"] noKeys =
      (Except.ok ":1\r\n\r\n",
        ⟨[("k", .zset ⟨[⟨"d", .ofInt 5⟩]⟩)],
          [.CreateKeyAndLock "k", .SetValue "k", .KeyUnlock "k"]⟩) ∧
    (handleZADD granted ["ZADD", "k", "INCR", "5", "d"] hostK).1 =
      Except.ok "+5.000000\r\n\r\n" := by
  decide

/-- Claim C6 at `ZINCRBY k 5 d` where k holds a:1, b:2, c:3: the member d is not
created (the set is as before) and the reply reports the score 0, not 5. -/
theorem handleZINCRBY_absent_member_not_created :
    handleZINCRBY granted ["ZINCRBY", "k", "5", "d"] hostK =
      (Except.ok "+0.000000\r\n\r\n", ⟨hostK.store, [.KeyLock "k", .KeyUnlock "k"]⟩) := by
  decide

/-- Claim C7 at its witness `ZCOUNT k -inf +inf` where k holds a sorted set: the
minimum `-inf` is rejected with an error, no count is replied. -/
theorem handleZCOUNT_rejects_neg_inf_minimum :
    handleZCOUNT granted ["ZCOUNT", "k", "-inf", "+inf"] hostK =
      (Except.error "min constraint must be a double", hostK) := by
  decide

/-- Claim C8 at `ZCARD k` and `ZCOUNT k 0 1` on a missing key: the reply is the
empty array `*0`, not the integer reply `:0`. -/
theorem handleZCARD_missing_key_replies_empty_array :
    handleZCARD granted ["ZCARD", "k"] noKeys = (Except.ok "*0\r\n\r\n", noKeys) ∧
    handleZCOUNT granted ["ZCOUNT", "k", "0", "1"] noKeys = (Except.ok "*0\r\n\r\n", noKeys) := by
  decide

/-- Claim C10 at `ZRANK k b WITHSCORE` where k holds a:1, b:2, c:3: the reply is the
bare integer rank `:1`; the two-element array is replied for the token `withscores`. -/
theorem handleZRANK_withscore_replies_bare_rank :
    handleZRANK granted ["ZRANK", "k", "b", "WITHSCORE"] hostK =
      (Except.ok ":1\r\n\r\n", ⟨hostK.store, [.KeyRLock "k", .KeyRUnlock "k"]⟩) ∧
    (handleZRANK granted ["ZRANK", "k", "b", "withscores"] hostK).1 =
      Except.ok "*2\r\n:1\r\n$1\r\n2\r\n\r\n" := by
  decide


/-! ### The order of the scores and the rank loop of handleZRANK -/

theorem Score.key_injective (a b : Score) (h : a.key = b.key) : a = b := by
  cases a <;> cases b <;> simp [Score.key, Prod.ext_iff] at h ⊢
  exact h

theorem Compare_le_zero_iff (a b : Score) : Compare a b ≤ 0 ↔ a.key ≤ b.key := by
  cases a <;> cases b <;>
    simp [Compare, Score.key, Score.lt, Score.isNaN, Prod.Lex.le_iff]
  rename_i p q
  by_cases h : p < q
  · simp [h, le_of_lt h]
  · by_cases h2 : q < p
    · simp [h, h2, not_le_of_lt h2]
    · simp [h, h2, le_of_not_lt h2]

theorem Score.lt_iff_key (a b : Score) (ha : a.isNaN = false) :
    a.lt b = true ↔ a.key < b.key := by
  cases a <;> cases b <;>
    simp [Score.key, Score.lt, Score.isNaN, Prod.Lex.lt_iff] at ha ⊢

/-- The sort order of `handleZRANK` in terms of the keys. -/
theorem rankCmp_le_zero_iff (name : String) (a b : MemberParam) :
    rankCmp name a b ≤ 0 ↔
      if EqualFold name "zrevrank" = true then b.score.key ≤ a.score.key
      else a.score.key ≤ b.score.key := by
  unfold rankCmp
  split <;> exact Compare_le_zero_iff _ _

theorem rankCmp_total (name : String) (a b : MemberParam) :
    rankCmp name a b ≤ 0 ∨ rankCmp name b a ≤ 0 := by
  rw [rankCmp_le_zero_iff, rankCmp_le_zero_iff]
  split
  · exact le_total _ _
  · exact le_total _ _

theorem rankCmp_trans (name : String) (a b c : MemberParam)
    (h1 : rankCmp name a b ≤ 0) (h2 : rankCmp name b c ≤ 0) : rankCmp name a c ≤ 0 := by
  rw [rankCmp_le_zero_iff] at h1 h2 ⊢
  split at h1
  · rename_i h; rw [if_pos h] at h2 ⊢; exact le_trans h2 h1
  · rename_i h; rw [if_neg h] at h2 ⊢; exact le_trans h1 h2

/-- The sorted members are a rearrangement of the enumerated ones. -/
theorem SortFunc_perm (name : String) (l : List MemberParam) :
    (SortFunc (rankCmp name) l).Perm l :=
  List.perm_insertionSort _ l

/-- The sorted members are in the order of the comparator. -/
theorem SortFunc_sorted (name : String) (l : List MemberParam) :
    (SortFunc (rankCmp name) l).Pairwise (fun a b => rankCmp name a b ≤ 0) :=
  @List.sorted_insertionSort _ (fun a b => rankCmp name a b ≤ 0) _
    ⟨rankCmp_total name⟩ ⟨rankCmp_trans name⟩ l

/-- In a list in ascending key order with pairwise distinct scores, the members
before a position are those with a smaller score and the members after it those
with a greater one. -/
theorem countP_of_ascending (pre post : List MemberParam) (x : MemberParam)
    (hsorted : (pre ++ x :: post).Pairwise (fun a b => a.score.key ≤ b.score.key))
    (hdistinct : (pre ++ x :: post).Pairwise (fun a b => a.score ≠ b.score))
    (hnan : ∀ m ∈ pre ++ x :: post, m.score.isNaN = false) :
    (pre ++ x :: post).countP (fun m => m.score.lt x.score) = pre.length ∧
    (pre ++ x :: post).countP (fun m => x.score.lt m.score) = post.length := by
  rw [List.pairwise_append] at hsorted hdistinct
  obtain ⟨-, hs2, hs3⟩ := hsorted
  obtain ⟨-, hd2, hd3⟩ := hdistinct
  rw [List.pairwise_cons] at hs2 hd2
  have hx : x.score.isNaN = false := hnan x (by simp)
  have hpre : ∀ y ∈ pre, y.score.key < x.score.key := fun y hy =>
    lt_of_le_of_ne (hs3 y hy x (by simp))
      (fun h => hd3 y hy x (by simp) (Score.key_injective _ _ h))
  have hpost : ∀ z ∈ post, x.score.key < z.score.key := fun z hz =>
    lt_of_le_of_ne (hs2.1 z hz) (fun h => hd2.1 z hz (Score.key_injective _ _ h))
  have e1 : pre.countP (fun m => m.score.lt x.score) = pre.length :=
    List.countP_eq_length.2 (fun y hy =>
      (Score.lt_iff_key _ _ (hnan y (by simp [hy]))).2 (hpre y hy))
  have e2 : post.countP (fun m => m.score.lt x.score) = 0 :=
    List.countP_eq_zero.2 (fun z hz h =>
      absurd ((Score.lt_iff_key _ _ (hnan z (by simp [hz]))).1 h) (not_lt_of_gt (hpost z hz)))
  have e3 : pre.countP (fun m => x.score.lt m.score) = 0 :=
    List.countP_eq_zero.2 (fun y hy h =>
      absurd ((Score.lt_iff_key _ _ hx).1 h) (not_lt_of_gt (hpre y hy)))
  have e4 : post.countP (fun m => x.score.lt m.score) = post.length :=
    List.countP_eq_length.2 (fun z hz => (Score.lt_iff_key _ _ hx).2 (hpost z hz))
  have e5 : x.score.lt x.score = false := by
    cases h : x.score.lt x.score
    · rfl
    · exact absurd ((Score.lt_iff_key _ _ hx).1 h) (lt_irrefl _)
  constructor
  · rw [List.countP_append, List.countP_cons, e1, e2, e5]; simp
  · rw [List.countP_append, List.countP_cons, e3, e4, e5]; simp

/-- The rank loop answers with the index of the first member of the wanted value. -/
theorem rankLoop_found (member : String) (pre post : List MemberParam) (x : MemberParam)
    (hx : x.value = member) (hpre : ∀ y ∈ pre, y.value ≠ member) :
    ∀ i, rankLoop member false (pre ++ x :: post) i =
      some (":" ++ toString (i + pre.length) ++ "\r\n\r\n") := by
  induction pre with
  | nil => intro i; simp [rankLoop, hx]
  | cons y ys ih =>
    intro i
    have hy : y.value ≠ member := hpre y (by simp)
    have := ih (fun z hz => hpre z (by simp [hz])) (i + 1)
    have e : i + (y :: ys).length = i + 1 + ys.length := by
      rw [List.length_cons]; omega
    rw [e]
    simp [rankLoop, hy, this]

/-- The rank loop finds nothing when no member has the wanted value. -/
theorem rankLoop_none (member : String) (withscores : Bool) (l : List MemberParam)
    (h : ∀ y ∈ l, y.value ≠ member) : ∀ i, rankLoop member withscores l i = none := by
  induction l with
  | nil => intro i; rfl
  | cons y ys ih =>
    intro i
    have hy : y.value ≠ member := h y (by simp)
    simp [rankLoop, hy, ih (fun z hz => h z (by simp [hz]))]

/-- The same as `countP_of_ascending` for a list in descending key order. -/
theorem countP_of_descending (pre post : List MemberParam) (x : MemberParam)
    (hsorted : (pre ++ x :: post).Pairwise (fun a b => b.score.key ≤ a.score.key))
    (hdistinct : (pre ++ x :: post).Pairwise (fun a b => a.score ≠ b.score))
    (hnan : ∀ m ∈ pre ++ x :: post, m.score.isNaN = false) :
    (pre ++ x :: post).countP (fun m => x.score.lt m.score) = pre.length ∧
    (pre ++ x :: post).countP (fun m => m.score.lt x.score) = post.length := by
  have hrev : (pre ++ x :: post).reverse = post.reverse ++ x :: pre.reverse := by simp
  have hperm : (post.reverse ++ x :: pre.reverse).Perm (pre ++ x :: post) :=
    hrev ▸ List.reverse_perm _
  have h := countP_of_ascending post.reverse pre.reverse x
    (hrev ▸ List.pairwise_reverse.2 hsorted)
    ((hperm.pairwise_iff (fun h => Ne.symm h)).2 hdistinct)
    (fun m hm => hnan m (hperm.mem_iff.1 hm))
  rw [hperm.countP_eq, hperm.countP_eq] at h
  simpa using h.symm

/-- Where the wanted member stands after the sort of `handleZRANK`, and what is
counted before and after it. -/
theorem rank_position (name : String) (l : List MemberParam) (member : Value) (sc : Score)
    (hmem : MemberParam.mk member sc ∈ l)
    (hnodup : (l.map (fun m => m.value)).Nodup)
    (hdistinct : l.Pairwise (fun a b => a.score ≠ b.score))
    (hnan : ∀ m ∈ l, m.score.isNaN = false) :
    ∃ pre post, SortFunc (rankCmp name) l = pre ++ MemberParam.mk member sc :: post ∧
      (∀ y ∈ pre, y.value ≠ member) ∧ l.length = pre.length + 1 + post.length ∧
      (EqualFold name "zrevrank" = false →
        l.countP (fun m => m.score.lt sc) = pre.length ∧
        l.countP (fun m => sc.lt m.score) = post.length) ∧
      (EqualFold name "zrevrank" = true →
        l.countP (fun m => sc.lt m.score) = pre.length ∧
        l.countP (fun m => m.score.lt sc) = post.length) := by
  have hperm := SortFunc_perm name l
  have hsorted := SortFunc_sorted name l
  obtain ⟨pre, post, hsplit⟩ := List.append_of_mem (hperm.mem_iff.2 hmem)
  rw [hsplit] at hperm hsorted
  have hnd : ((pre ++ MemberParam.mk member sc :: post).map (fun m => m.value)).Nodup :=
    (hperm.map _).nodup_iff.2 hnodup
  have hpre : ∀ y ∈ pre, y.value ≠ member := by
    intro y hy hval
    rw [List.map_append, List.map_cons, List.nodup_append] at hnd
    exact hnd.2.2 (List.mem_map.2 ⟨y, hy, hval⟩) (List.mem_cons_self _ _)
  have hd := (hperm.pairwise_iff (fun h => Ne.symm h)).2 hdistinct
  have hn : ∀ m ∈ pre ++ MemberParam.mk member sc :: post, m.score.isNaN = false :=
    fun m hm => hnan m (hperm.mem_iff.1 hm)
  refine ⟨pre, post, hsplit, hpre, ?_, ?_, ?_⟩
  · rw [← hperm.length_eq]; simp; omega
  · intro hname
    have hs : (pre ++ MemberParam.mk member sc :: post).Pairwise
        (fun a b => a.score.key ≤ b.score.key) :=
      hsorted.imp (fun {a b} h => by
        rw [rankCmp_le_zero_iff, hname] at h
        simpa using h)
    have h := countP_of_ascending pre post _ hs hd hn
    rw [hperm.countP_eq, hperm.countP_eq] at h
    exact h
  · intro hname
    have hs : (pre ++ MemberParam.mk member sc :: post).Pairwise
        (fun a b => b.score.key ≤ a.score.key) :=
      hsorted.imp (fun {a b} h => by
        rw [rankCmp_le_zero_iff, hname] at h
        simpa using h)
    have h := countP_of_descending pre post _ hs hd hn
    rw [hperm.countP_eq, hperm.countP_eq] at h
    exact h

/-- On a three-token command whose key holds a sorted set and whose read lock is
acquired, `handleZRANK` answers what the rank loop finds in the sorted members. -/
theorem handleZRANK_of_set (ctx : Context) (name key member : String) (server : Server)
    (set : SortedSet) (hex : server.KeyExists key = true) (hlock : ctx key = true)
    (hval : server.GetValue key = .zset set) :
    (handleZRANK ctx [name, key, member] server).1 =
      match rankLoop member false (SortFunc (rankCmp name) set.members) 0 with
      | some reply => Except.ok reply
      | none => Except.ok "_\r\n\r\n" := by
  have hval2 : ∀ t, Server.GetValue { store := server.store, trace := t } key = .zset set :=
    fun t => hval
  simp [handleZRANK, hex, Server.KeyRLock, Server.acquire, hlock, hval2, SortedSet.GetAll]
  split <;> simp_all

/-- Claim C9: for a command `name key member` without WITHSCORE. If the key does not
exist the reply is the nil `_`. If the key holds a sorted set (each value once,
scores pairwise distinct and not NaN) and the read lock is acquired: when no member
has the value `member` the reply is the nil `_`; when `member` is in the set with the
score sc, ZRANK replies the number of members whose score is strictly less than sc,
ZREVRANK replies the number of members whose score is strictly greater, and the two
numbers sum to the cardinality minus 1. -/
theorem handleZRANK_rank (ctx : Context) (name key member : String) (server : Server) :
    (server.KeyExists key = false →
      handleZRANK ctx [name, key, member] server = (Except.ok "_\r\n\r\n", server)) ∧
    (∀ set : SortedSet, server.KeyExists key = true → ctx key = true →
      server.GetValue key = .zset set →
      (set.members.map (fun m => m.value)).Nodup →
      set.members.Pairwise (fun a b => a.score ≠ b.score) →
      (∀ m ∈ set.members, m.score.isNaN = false) →
      ((∀ m ∈ set.members, m.value ≠ member) →
        (handleZRANK ctx [name, key, member] server).1 = Except.ok "_\r\n\r\n") ∧
      (∀ sc, MemberParam.mk member sc ∈ set.members →
        (ToLower name = "zrank" →
          (handleZRANK ctx [name, key, member] server).1 = Except.ok
            (":" ++ toString (set.members.countP (fun m => m.score.lt sc)) ++ "\r\n\r\n")) ∧
        (ToLower name = "zrevrank" →
          (handleZRANK ctx [name, key, member] server).1 = Except.ok
            (":" ++ toString (set.members.countP (fun m => sc.lt m.score)) ++ "\r\n\r\n")) ∧
        set.members.countP (fun m => m.score.lt sc) +
          set.members.countP (fun m => sc.lt m.score) = set.Cardinality - 1)) := by
  constructor
  · intro hmiss
    simp [handleZRANK, hmiss]
  · intro set hex hlock hval hnodup hdistinct hnan
    constructor
    · intro habsent
      rw [handleZRANK_of_set ctx name key member server set hex hlock hval,
        rankLoop_none member false _ (fun y hy =>
          habsent y ((SortFunc_perm name set.members).mem_iff.1 hy))]
    · intro sc hmem
      obtain ⟨pre, post, hsplit, hpre, hlen, hasc, hdesc⟩ :=
        rank_position name set.members member sc hmem hnodup hdistinct hnan
      have hloop := rankLoop_found member pre post ⟨member, sc⟩ rfl hpre 0
      rw [← hsplit, Nat.zero_add] at hloop
      have hreply := handleZRANK_of_set ctx name key member server set hex hlock hval
      rw [hloop] at hreply
      refine ⟨?_, ?_, ?_⟩
      · intro hname
        have hrev : EqualFold name "zrevrank" = false := by
          cases e : EqualFold name "zrevrank" with
          | false => rfl
          | true =>
            have h1 := EqualFold_length name "zrevrank" e
            have h2 : (ToLower name).data.length = name.data.length := by
              simp [ToLower]
            rw [hname] at h2
            rw [← h2] at h1
            exact absurd h1 (by decide)
        rw [hreply, (hasc hrev).1]
      · intro hname
        have hrev : EqualFold name "zrevrank" = true :=
          EqualFold_of_ToLower name "zrevrank" (by decide) (by decide) hname
        rw [hreply, (hdesc hrev).1]
      · unfold SortedSet.Cardinality
        cases hrev : EqualFold name "zrevrank"
        · rw [(hasc hrev).1, (hasc hrev).2]; omega
        · rw [(hdesc hrev).1, (hdesc hrev).2]; omega

/-- Claim C9 on the set a:1, b:2, c:3: `ZRANK k b` replies `:1`, `zRevRank k a`
replies `:2`, an absent member and a missing key reply the nil. -/
theorem handleZRANK_rank_witness :
    (handleZRANK granted ["ZRANK", "k", "b"] hostK).1 = Except.ok ":1\r\n\r\n" ∧
    (handleZRANK granted ["zRevRank", "k", "a"] hostK).1 = Except.ok ":2\r\n\r\n" ∧
    (handleZRANK granted ["ZRANK", "k", "z"] hostK).1 = Except.ok "_\r\n\r\n" ∧
    handleZRANK granted ["ZRANK", "k", "a"] noKeys = (Except.ok "_\r\n\r\n", noKeys) :=
  have hb := (handleZRANK_rank granted "ZRANK" "k" "b" hostK).2
    ⟨[⟨"a", .ofInt 1⟩, ⟨"b", .ofInt 2⟩, ⟨"c", .ofInt 3⟩]⟩
    (by decide) (by decide) (by decide) (by decide) (by decide) (by decide)
  have ha := (handleZRANK_rank granted "zRevRank" "k" "a" hostK).2
    ⟨[⟨"a", .ofInt 1⟩, ⟨"b", .ofInt 2⟩, ⟨"c", .ofInt 3⟩]⟩
    (by decide) (by decide) (by decide) (by decide) (by decide) (by decide)
  have hz := (handleZRANK_rank granted "ZRANK" "k" "z" hostK).2
    ⟨[⟨"a", .ofInt 1⟩, ⟨"b", .ofInt 2⟩, ⟨"c", .ofInt 3⟩]⟩
    (by decide) (by decide) (by decide) (by decide) (by decide) (by decide)
  ⟨(hb.2 (.ofInt 2) (by decide)).1 (by decide),
    (ha.2 (.ofInt 1) (by decide)).2.1 (by decide),
    hz.1 (by decide),
    (handleZRANK_rank granted "ZRANK" "k" "a" noKeys).1 (by decide)⟩


/-! ### The set-algebra handlers, the dispatch and the key extractors at concrete inputs -/

/-- Claim C11 at its witness `ZINTER k missing`, where k holds a:1, b:2, c:3 and the
key `missing` does not exist: the missing key is passed over and the reply lists
the three members of k, none of which is in the (empty) set of the missing key. -/
theorem handleZINTER_ignores_missing_key :
    hostK.KeyExists "missing" = false ∧
    handleZINTER granted ["ZINTER", "k", "missing"] hostK =
      (Except.ok "*3\r\na\r\nb\r\nc\r\n\r\n",
        ⟨hostK.store, [.KeyRLock "k", .KeyRUnlock "k"]⟩) := by
  decide

/-- Claim C12 at `ZDIFF missing k`, where k holds a:1, b:2, c:3 and the key `missing`
does not exist: the first key has no members, and yet the reply lists the three
members of k, the first set that exists being taken as the base. -/
theorem handleZDIFF_missing_first_key :
    hostK.KeyExists "missing" = false ∧
    handleZDIFF granted ["ZDIFF", "missing", "k"] hostK =
      (Except.ok "*3\r\n$1\r\na\r\n$1\r\nb\r\n$1\r\nc\r\n\r\n",
        ⟨hostK.store, [.KeyRLock "k", .KeyRUnlock "k"]⟩) := by
  decide

/-- Claim C15 at its witness, a set of cardinality 3 with start 0 and stop 5: the
bounds test lets the stop through, the three members are removed, and the read of
`members[3]` panics; no error `indices out of bounds` is returned. -/
theorem handleZREMRANGEBYRANK_stop_unchecked :
    handleZREMRANGEBYRANK granted ["ZREMRANGEBYRANK", "k", "0", "5"] hostK =
      Run.panics ⟨[("k", .zset ⟨[]⟩)], [.KeyLock "k", .KeyUnlock "k"]⟩ := by
  decide

/-- Claim C17 at `ZDIFF k k`, at `ZPOPMIN e` on an existing empty set and at
`ZUNION e e` over empty sets: each reply is the two bytes `*0`, without the
terminator. -/
theorem empty_array_replies_lack_terminator :
    (handleZDIFF granted ["ZDIFF", "k", "k"] hostK).1 = Except.ok "*0" ∧
    (handleZPOP granted ["ZPOPMIN", "e"] hostE).1 = Except.ok "*0" ∧
    (handleZUNION granted ["ZUNION", "e", "e"] hostE).1 = Except.ok "*0" := by
  decide

/-- Claim C18 at the registered names `zlexcount`, `zrangebylex` and `zrangebyscore`:
the table of `NewModule` holds 27 names, these three have no `case` in the switch of
`HandleCommand`, and for each of them, whatever the handlers do, the reply is the
error `command unknown`. -/
theorem HandleCommand_unknown_for_registered_names :
    (NewModule.map (fun c => c.Command)).length = 27 ∧
    (NewModule.map (fun c => c.Command)).filter (fun n => (route n).isNone) =
      ["zlexcount", "zrangebylex", "zrangebyscore"] ∧
    ∀ (call : Handler → Context → List String → Server → Run) (ctx : Context)
      (args : List String) (server : Server),
      HandleCommand call ctx ("ZLEXCOUNT" :: args) server =
        Run.returns (Except.error "command unknown", server) ∧
      HandleCommand call ctx ("zrangebylex" :: args) server =
        Run.returns (Except.error "command unknown", server) ∧
      HandleCommand call ctx ("zrangebyscore" :: args) server =
        Run.returns (Except.error "command unknown", server) :=
  ⟨by decide, by decide, fun _ _ _ _ => ⟨rfl, rfl, rfl⟩⟩

/-- Claim C20 at its witness `ZINTERSTORE d k1 k2 WEIGHTS 1 2`: the extractor returns
the destination and the first source key only; the last source key k2 is dropped.
The extractor of `zinter` keeps every key of the same list. -/
theorem zinterstoreKeys_drops_last_key :
    (extractorOf "zinterstore").map
        (fun f => f ["ZINTERSTORE", "d", "k1", "k2", "WEIGHTS", "1", "2"]) =
      some (Except.ok ["d", "k1"]) ∧
    zinterstoreKeys ["ZINTERSTORE", "d", "k1", "k2", "WEIGHTS", "1", "2"] =
      Except.ok ["d", "k1"] ∧
    zinterKeys ["ZINTER", "d", "k1", "k2", "WEIGHTS", "1", "2"] =
      Except.ok ["d", "k1", "k2"] := by
  decide

/-- Claim C19 fails as stated. At the one-token vector `ZMPOP` the extractor fails
with the arity error although no MIN, MAX or COUNT token stands at index 0 or 1. At
`ZMPOP e m\u0131n` (the rune U+0131, which `strings.ToUpper` turns into I and
`strings.ToLower` leaves as it is) the extractor and the argument parsing both
succeed, the extractor returns the key e alone, and the handler iterates e and
`m\u0131n` and pops from the latter. At `ZMPOP m\u0131n k` the extractor fails with
the arity error and the handler pops from k. -/
theorem zmpopKeys_differs_from_handleZMPOP :
    zmpopKeys ["ZMPOP"] = Except.error WRONG_ARGS_RESPONSE ∧
    IndexFunc ["ZMPOP"] (fun s => Contains ["min", "max", "count"] (ToLower s)) = -1 ∧
    zmpopKeys ["ZMPOP", "e", "m\u0131n"] = Except.ok ["e"] ∧
    zmpopArgs ["ZMPOP", "e", "m\u0131n"] = Except.ok (1, "min", ["e", "m\u0131n"]) ∧
    handleZMPOP granted ["ZMPOP", "e", "m\u0131n"] hostEI =
      (Except.ok "*1\r\n$10\r\na 1.000000\r\n\r\n",
        ⟨[("e", .zset ⟨[]⟩), ("m\u0131n", .zset ⟨[]⟩)],
          [.KeyLock "e", .KeyUnlock "e", .KeyLock "m\u0131n", .KeyUnlock "m\u0131n"]⟩) ∧
    zmpopKeys ["ZMPOP", "m\u0131n", "k"] = Except.error WRONG_ARGS_RESPONSE ∧
    zmpopArgs ["ZMPOP", "m\u0131n", "k"] = Except.ok (1, "min", ["m\u0131n", "k"]) ∧
    (handleZMPOP granted ["ZMPOP", "m\u0131n", "k"] hostK).1 =
      Except.ok "*1\r\n$10\r\na 1.000000\r\n\r\n" := by
  decide

/-! ### Letter case: the test of the `zmpop` key extractor against that of `handleZMPOP` -/

/-- A rune other than U+0130 and U+0131 is taken to an ASCII letter l, not k, by
`unicode.ToLower` exactly when `unicode.ToUpper` takes it to the capital of l. -/
theorem char_fold (l u : Char) (hl : l.toNat < 128) (hl0 : l.toNat ≠ 0) (hlk : l ≠ 'k')
    (hu : u.toNat < 128) (hu0 : u.toNat ≠ 0) (hus : u ≠ 'S')
    (h : ∀ n, n < 128 → ((Char.ofNat n).toLower = l ↔ (Char.ofNat n).toUpper = u)) (c : Char)
    (h1 : c.toNat ≠ 0x130) (h2 : c.toNat ≠ 0x131) :
    unicode.ToLower c = l ↔ unicode.ToUpper c = u := by
  by_cases hc : c.toNat < 128
  · have := h c.toNat hc
    rw [Char.ofNat_toNat] at this
    unfold unicode.ToLower unicode.ToUpper
    rw [if_pos hc, if_pos hc]
    exact this
  · rw [ToLower_eq_ascii c l hc hl hl0, ToUpper_eq_ascii c u hc hu hu0]
    constructor
    · rintro (⟨e, -⟩ | ⟨-, e⟩)
      · exact absurd e h1
      · exact absurd e hlk
    · rintro (⟨e, -⟩ | ⟨-, e⟩)
      · exact absurd e h2
      · exact absurd e hus

theorem map_fold (ls us : List Char)
    (h : List.Forall₂ (fun l u => ∀ c : Char, c.toNat ≠ 0x130 → c.toNat ≠ 0x131 →
      (unicode.ToLower c = l ↔ unicode.ToUpper c = u)) ls us) :
    ∀ cs : List Char, (∀ c ∈ cs, c.toNat ≠ 0x130 ∧ c.toNat ≠ 0x131) →
      (cs.map unicode.ToLower = ls ↔ cs.map unicode.ToUpper = us) := by
  induction h with
  | nil => intro cs _; cases cs <;> simp
  | cons hlu _ ih =>
    intro cs hcs
    cases cs with
    | nil => simp
    | cons c cs =>
      have hc := hcs c (List.mem_cons_self _ _)
      simp [hlu c hc.1 hc.2, ih cs (fun x hx => hcs x (List.mem_cons_of_mem _ hx))]

theorem ToLower_eq_iff_ToUpper (s : String) (hs : plainCase s = true) (ls us : List Char)
    (h : List.Forall₂ (fun l u => ∀ c : Char, c.toNat ≠ 0x130 → c.toNat ≠ 0x131 →
      (unicode.ToLower c = l ↔ unicode.ToUpper c = u)) ls us) :
    ToLower s = String.mk ls ↔ ToUpper s = String.mk us := by
  unfold ToLower ToUpper
  rw [String.ext_iff, String.ext_iff]
  refine map_fold ls us h s.data (fun c hc => ?_)
  have := List.all_eq_true.1 hs c hc
  simpa using this

theorem ToLower_min (s : String) (hs : plainCase s = true) :
    ToLower s = "min" ↔ ToUpper s = "MIN" :=
  ToLower_eq_iff_ToUpper s hs ['m', 'i', 'n'] ['M', 'I', 'N']
    (.cons (char_fold _ _ (by decide) (by decide) (by decide) (by decide) (by decide)
      (by decide) (by decide)) (.cons (char_fold _ _ (by decide) (by decide) (by decide) (by decide) (by decide)
      (by decide) (by decide)) (.cons (char_fold _ _ (by decide) (by decide) (by decide) (by decide) (by decide)
      (by decide) (by decide)) .nil)))

theorem ToLower_max (s : String) (hs : plainCase s = true) :
    ToLower s = "max" ↔ ToUpper s = "MAX" :=
  ToLower_eq_iff_ToUpper s hs ['m', 'a', 'x'] ['M', 'A', 'X']
    (.cons (char_fold _ _ (by decide) (by decide) (by decide) (by decide) (by decide)
      (by decide) (by decide)) (.cons (char_fold _ _ (by decide) (by decide) (by decide) (by decide) (by decide)
      (by decide) (by decide)) (.cons (char_fold _ _ (by decide) (by decide) (by decide) (by decide) (by decide)
      (by decide) (by decide)) .nil)))

theorem ToLower_count (s : String) (hs : plainCase s = true) :
    ToLower s = "count" ↔ ToUpper s = "COUNT" :=
  ToLower_eq_iff_ToUpper s hs ['c', 'o', 'u', 'n', 't'] ['C', 'O', 'U', 'N', 'T']
    (.cons (char_fold _ _ (by decide) (by decide) (by decide) (by decide) (by decide)
      (by decide) (by decide)) (.cons (char_fold _ _ (by decide) (by decide) (by decide) (by decide) (by decide)
      (by decide) (by decide)) (.cons (char_fold _ _ (by decide) (by decide) (by decide) (by decide) (by decide)
      (by decide) (by decide)) (.cons (char_fold _ _ (by decide) (by decide) (by decide) (by decide) (by decide)
      (by decide) (by decide)) (.cons (char_fold _ _ (by decide) (by decide) (by decide) (by decide) (by decide)
      (by decide) (by decide)) .nil)))))

/-- On a token without U+0130 and U+0131 the test of the `zmpop` key extractor is the
test for a modifier. -/
theorem upper_test_eq_isModifier (s : String) (hs : plainCase s = true) :
    Contains ["MIN", "MAX", "COUNT"] (ToUpper s) = isModifier s := by
  rw [Bool.eq_iff_iff]
  simp only [Contains, isModifier, List.contains_cons, List.contains_nil, Bool.or_false,
    Bool.or_eq_true, beq_iff_eq]
  rw [ToLower_min s hs, ToLower_max s hs, ToLower_count s hs]

/-- A modifier is COUNT or one of MIN, MAX, as `handleZMPOP` tests them. -/
theorem isModifier_eq (s : String) :
    isModifier s = ((ToLower s == "count") || Contains ["min", "max"] (ToLower s)) := by
  unfold isModifier Contains
  generalize ToLower s = u
  simp only [List.contains_cons, List.contains_nil, Bool.or_false]
  cases (u == "min") <;> cases (u == "max") <;> cases (u == "count") <;> rfl

/-! ### slices.IndexFunc -/

theorem indexFrom_bounds (f : String → Bool) (l : List String) :
    ∀ i : Nat, indexFrom f l i = -1 ∨
      ((i : Int) ≤ indexFrom f l i ∧ indexFrom f l i < (i : Int) + l.length) := by
  induction l with
  | nil => intro i; left; rfl
  | cons s rest ih =>
    intro i
    unfold indexFrom
    by_cases h : f s = true
    · rw [if_pos h]; right; simp only [List.length_cons]; constructor <;> omega
    · rw [if_neg h]
      rcases ih (i + 1) with h1 | h1
      · left; exact h1
      · right; simp only [List.length_cons]; constructor <;> omega

theorem indexFrom_or (f g : String → Bool) (l : List String) :
    ∀ i : Nat, indexFrom (fun s => f s || g s) l i =
      if indexFrom f l i = -1 then indexFrom g l i
      else if indexFrom g l i = -1 then indexFrom f l i
      else min (indexFrom f l i) (indexFrom g l i) := by
  induction l with
  | nil => intro i; simp [indexFrom]
  | cons s rest ih =>
    intro i
    have bf := indexFrom_bounds f rest (i + 1)
    have bg := indexFrom_bounds g rest (i + 1)
    have e : indexFrom (fun s => f s || g s) (s :: rest) i =
        if (f s || g s) = true then (i : Int)
        else indexFrom (fun s => f s || g s) rest (i + 1) := rfl
    have ef : indexFrom f (s :: rest) i =
        if f s = true then (i : Int) else indexFrom f rest (i + 1) := rfl
    have eg : indexFrom g (s :: rest) i =
        if g s = true then (i : Int) else indexFrom g rest (i + 1) := rfl
    rw [e, ef, eg, ih (i + 1)]
    cases hf : f s <;> cases hg : g s <;> simp <;> split_ifs <;> omega

/-- The end of the key list of the `zmpop` extractor, from the two indices
`handleZMPOP` computes. -/
theorem IndexFunc_isModifier (cmd : List String) :
    IndexFunc cmd isModifier =
      if IndexFunc cmd (fun s => ToLower s == "count") = -1 then
        IndexFunc cmd (fun s => Contains ["min", "max"] (ToLower s))
      else if IndexFunc cmd (fun s => Contains ["min", "max"] (ToLower s)) = -1 then
        IndexFunc cmd (fun s => ToLower s == "count")
      else min (IndexFunc cmd (fun s => ToLower s == "count"))
        (IndexFunc cmd (fun s => Contains ["min", "max"] (ToLower s))) := by
  have h : isModifier = fun s => (ToLower s == "count") || Contains ["min", "max"] (ToLower s) :=
    funext isModifier_eq
  unfold IndexFunc
  rw [h]
  exact indexFrom_or _ _ cmd 0

/-! ### The argument parsing of handleZMPOP -/

theorem zmpopCount_ok (cmd : List String) (count mi : Int)
    (h : zmpopCount cmd = .ok (count, mi)) :
    0 < count ∧
    ((IndexFunc cmd (fun s => ToLower s == "count") = -1 ∧ mi = -1 ∧ count = 1) ∨
      (2 ≤ IndexFunc cmd (fun s => ToLower s == "count") ∧
        mi = IndexFunc cmd (fun s => ToLower s == "count"))) := by
  unfold zmpopCount at h
  simp only [] at h
  generalize IndexFunc cmd (fun s => ToLower s == "count") = c at h ⊢
  split at h
  · rename_i hc
    split at h
    · cases h
    · rename_i h2
      split at h
      · cases h
      · split at h
        · cases h
        · split at h
          · cases h
          · rename_i hpos
            simp only [Except.ok.injEq, Prod.mk.injEq] at h
            obtain ⟨rfl, rfl⟩ := h
            exact ⟨by omega, Or.inr ⟨by omega, rfl⟩⟩
  · rename_i hc
    simp only [Except.ok.injEq, Prod.mk.injEq] at h
    obtain ⟨rfl, rfl⟩ := h
    have : c = -1 := by simpa using hc
    exact ⟨by decide, Or.inl ⟨this, rfl, rfl⟩⟩

theorem zmpopPolicy_ok (cmd : List String) (mi mi1 : Int) (policy : String)
    (h : zmpopPolicy cmd mi = .ok (policy, mi1)) :
    (IndexFunc cmd (fun s => Contains ["min", "max"] (ToLower s)) = -1 ∧ mi1 = mi ∧
      policy = "min") ∨
    (2 ≤ IndexFunc cmd (fun s => Contains ["min", "max"] (ToLower s)) ∧
      mi1 = if mi = -1 ∨ IndexFunc cmd (fun s => Contains ["min", "max"] (ToLower s)) < mi
        then IndexFunc cmd (fun s => Contains ["min", "max"] (ToLower s)) else mi) := by
  unfold zmpopPolicy at h
  simp only [] at h
  generalize IndexFunc cmd (fun s => Contains ["min", "max"] (ToLower s)) = p at h ⊢
  split at h
  · split at h
    · cases h
    · rename_i h2
      simp only [Except.ok.injEq, Prod.mk.injEq] at h
      obtain ⟨-, rfl⟩ := h
      right
      refine ⟨by omega, ?_⟩
      simp
  · rename_i hp
    simp only [Except.ok.injEq, Prod.mk.injEq] at h
    obtain ⟨rfl, rfl⟩ := h
    have : p = -1 := by simpa using hp
    exact Or.inl ⟨this, rfl, rfl⟩

/-- What a successful argument parsing of `handleZMPOP` yields: a positive count and
the keys before the first modifier, which stands at index 2 or later. -/
theorem zmpopArgs_ok (cmd : List String) (count : Int) (policy : String) (keys : List String)
    (h : zmpopArgs cmd = .ok (count, policy, keys)) :
    2 ≤ cmd.length ∧ 0 < count ∧
    (IndexFunc cmd isModifier = -1 ∨ 2 ≤ IndexFunc cmd isModifier) ∧
    keys = (if IndexFunc cmd isModifier = -1 then cmd.drop 1
      else sliceFrom1 cmd (IndexFunc cmd isModifier)) := by
  unfold zmpopArgs at h
  split at h
  · cases h
  · rename_i hlen
    cases hc : zmpopCount cmd with
    | error e => rw [hc] at h; cases h
    | ok r =>
      obtain ⟨count1, mi⟩ := r
      rw [hc] at h
      simp only [] at h
      cases hp : zmpopPolicy cmd mi with
      | error e => rw [hp] at h; cases h
      | ok r2 =>
        obtain ⟨policy1, mi1⟩ := r2
        rw [hp] at h
        simp only [Except.ok.injEq, Prod.mk.injEq] at h
        obtain ⟨rfl, rfl, rfl⟩ := h
        obtain ⟨hpos, hcnt⟩ := zmpopCount_ok cmd _ _ hc
        have hpol := zmpopPolicy_ok cmd _ _ _ hp
        have hm := IndexFunc_isModifier cmd
        have hmi : mi1 = IndexFunc cmd isModifier := by
          rw [hm]
          rcases hcnt with ⟨h1, h2, -⟩ | ⟨h1, h2⟩ <;> rcases hpol with ⟨h3, h4, -⟩ | ⟨h3, h4⟩ <;>
            subst h4 <;> subst h2 <;> split_ifs <;> omega
        refine ⟨by omega, hpos, ?_, ?_⟩
        · rw [← hmi]
          rcases hcnt with ⟨h1, h2, -⟩ | ⟨h1, h2⟩ <;> rcases hpol with ⟨h3, h4, -⟩ | ⟨h3, h4⟩ <;>
            subst h4 <;> subst h2 <;> omega
        · rw [← hmi]
          by_cases hneg : mi1 = -1
          · simp [hneg]
          · have : (mi1 == -1) = false := by simpa using hneg
            simp [this, hneg]

/-- When a modifier stands at index 0 or 1, the argument parsing of `handleZMPOP` fails. -/
theorem zmpopArgs_error_of_early_modifier (cmd : List String)
    (h : IndexFunc cmd isModifier = 0 ∨ IndexFunc cmd isModifier = 1) :
    ∃ e, zmpopArgs cmd = .error e := by
  cases hres : zmpopArgs cmd with
  | error e => exact ⟨e, rfl⟩
  | ok r =>
    obtain ⟨count, policy, keys⟩ := r
    obtain ⟨-, -, hm, -⟩ := zmpopArgs_ok cmd count policy keys hres
    omega

theorem indexFrom_congr (f g : String → Bool) (l : List String)
    (h : ∀ t ∈ l, f t = g t) : ∀ i : Nat, indexFrom f l i = indexFrom g l i := by
  induction l with
  | nil => intro i; rfl
  | cons s rest ih =>
    intro i
    simp only [indexFrom, h s (List.mem_cons_self _ _)]
    rw [ih (fun t ht => h t (List.mem_cons_of_mem _ ht)) (i + 1)]

/-- The `zmpop` key extractor, in terms of the first modifier, on a command vector
without U+0130 and U+0131. -/
theorem zmpopKeys_eq (cmd : List String) (hplain : ∀ t ∈ cmd, plainCase t = true) :
    zmpopKeys cmd =
      if cmd.length < 2 then .error WRONG_ARGS_RESPONSE
      else if IndexFunc cmd isModifier = -1 then .ok (cmd.drop 1)
      else if 2 ≤ IndexFunc cmd isModifier then .ok (sliceFrom1 cmd (IndexFunc cmd isModifier))
      else .error WRONG_ARGS_RESPONSE := by
  have h : IndexFunc cmd (fun s => Contains ["MIN", "MAX", "COUNT"] (ToUpper s)) =
      IndexFunc cmd isModifier :=
    indexFrom_congr _ _ cmd (fun t ht => upper_test_eq_isModifier t (hplain t ht)) 0
  unfold zmpopKeys
  simp only [h]
  split
  · rfl
  · by_cases h1 : IndexFunc cmd isModifier = -1
    · simp [h1]
    · by_cases h2 : 2 ≤ IndexFunc cmd isModifier
      · simp [h1, h2]
      · simp [h1, h2]

/-- Claim C19, as amended: on a command vector none of whose tokens holds the rune
U+0130 or U+0131, whenever both the `zmpop` key extractor and the argument parsing of
`handleZMPOP` succeed, the extractor returns the key list the handler iterates,
which is `cmd[1:m]` for the least index m of a token equal, ignoring case, to MIN,
MAX or COUNT, and `cmd[1:]` when there is none. The extractor fails with the arity
error exactly when the vector has fewer than 2 tokens or such a token stands at
index 0 or 1; and whenever the extractor fails, the handler returns an error too,
the host untouched. -/
theorem zmpopKeys_mirrors_handleZMPOP (cmd : List String)
    (hplain : ∀ t ∈ cmd, plainCase t = true) :
    (∀ (ks : List String) (count : Int) (policy : String) (keys : List String),
      zmpopKeys cmd = .ok ks → zmpopArgs cmd = .ok (count, policy, keys) →
      ks = keys ∧
      ks = (if IndexFunc cmd isModifier = -1 then cmd.drop 1
        else sliceFrom1 cmd (IndexFunc cmd isModifier))) ∧
    (zmpopKeys cmd = .error WRONG_ARGS_RESPONSE ↔
      (cmd.length < 2 ∨ IndexFunc cmd isModifier = 0 ∨ IndexFunc cmd isModifier = 1)) ∧
    ((∃ e, zmpopKeys cmd = .error e) →
      ∀ (ctx : Context) (server : Server),
        ∃ e, handleZMPOP ctx cmd server = (Except.error e, server)) := by
  have hb : IndexFunc cmd isModifier = -1 ∨
      ((0 : Int) ≤ IndexFunc cmd isModifier ∧ _) := indexFrom_bounds isModifier cmd 0
  have hfail : (∃ e, zmpopKeys cmd = .error e) →
      (cmd.length < 2 ∨ IndexFunc cmd isModifier = 0 ∨ IndexFunc cmd isModifier = 1) := by
    rintro ⟨e, he⟩
    rw [zmpopKeys_eq cmd hplain] at he
    split at he
    · left; assumption
    · split at he
      · cases he
      · split at he
        · cases he
        · right
          have h0 : (0 : Int) ≤ IndexFunc cmd isModifier := by
            rcases hb with h | h
            · contradiction
            · simpa using h.1
          omega
  refine ⟨?_, ⟨fun h => hfail ⟨_, h⟩, ?_⟩, ?_⟩
  · intro ks count policy keys hks hargs
    obtain ⟨hlen, -, hm, hkeys⟩ := zmpopArgs_ok cmd count policy keys hargs
    have : ks = (if IndexFunc cmd isModifier = -1 then cmd.drop 1
        else sliceFrom1 cmd (IndexFunc cmd isModifier)) := by
      rw [zmpopKeys_eq cmd hplain, if_neg (by omega)] at hks
      split at hks
      · rename_i h1
        rw [if_pos h1]
        exact (Except.ok.inj hks).symm
      · rename_i h1
        rw [if_neg h1]
        rw [if_pos (by omega)] at hks
        exact (Except.ok.inj hks).symm
    exact ⟨this.trans hkeys.symm, this⟩
  · intro h
    rw [zmpopKeys_eq cmd hplain]
    rcases h with h | h | h
    · rw [if_pos h]
    · split
      · rfl
      · rw [if_neg (by omega), if_neg (by omega)]
    · split
      · rfl
      · rw [if_neg (by omega), if_neg (by omega)]
  · intro hex ctx server
    have hargs : ∃ e, zmpopArgs cmd = .error e := by
      rcases hfail hex with h | h
      · exact ⟨WRONG_ARGS_RESPONSE, by unfold zmpopArgs; rw [if_pos h]⟩
      · exact zmpopArgs_error_of_early_modifier cmd h
    obtain ⟨e, he⟩ := hargs
    exact ⟨e, by unfold handleZMPOP; rw [he]⟩

/-- Claim C19, the amended statement at `ZMPOP k1 k2 max COUNT 2` (extractor and
handler agree on the keys k1, k2) and at `ZMPOP min` (both fail). -/
theorem zmpopKeys_mirrors_handleZMPOP_witness :
    zmpopKeys ["ZMPOP", "k1", "k2", "max", "COUNT", "2"] = .ok ["k1", "k2"] ∧
    zmpopArgs ["ZMPOP", "k1", "k2", "max", "COUNT", "2"] = .ok (2, "max", ["k1", "k2"]) ∧
    (["k1", "k2"] = ["k1", "k2"] ∧
      ["k1", "k2"] =
        (if IndexFunc ["ZMPOP", "k1", "k2", "max", "COUNT", "2"] isModifier = -1 then
          List.drop 1 ["ZMPOP", "k1", "k2", "max", "COUNT", "2"]
        else sliceFrom1 ["ZMPOP", "k1", "k2", "max", "COUNT", "2"]
          (IndexFunc ["ZMPOP", "k1", "k2", "max", "COUNT", "2"] isModifier))) ∧
    (∃ e, handleZMPOP granted ["ZMPOP", "min"] hostK = (Except.error e, hostK)) :=
  ⟨by decide, by decide,
    (zmpopKeys_mirrors_handleZMPOP ["ZMPOP", "k1", "k2", "max", "COUNT", "2"] (by decide)).1
      ["k1", "k2"] 2 "max" ["k1", "k2"] (by decide) (by decide),
    (zmpopKeys_mirrors_handleZMPOP ["ZMPOP", "min"] (by decide)).2.2
      ⟨WRONG_ARGS_RESPONSE, by decide⟩ granted hostK⟩

/-- A removal loop that stays within the sorted members removes from the set the
values of the members it runs over, and counts them. -/
theorem removeRanks_ok (members : List MemberParam) :
    ∀ (todo i : Nat) (set : SortedSet) (deletedCount : Nat), i + todo ≤ members.length →
      removeRanks members todo i set deletedCount =
        .ok (⟨set.members.filter (fun m =>
          !((members.drop i).take todo).any (fun x => x.value == m.value))⟩,
          deletedCount + todo) := by
  intro todo
  induction todo with
  | zero =>
    intro i set deletedCount _
    simp [removeRanks]
  | succ todo ih =>
    intro i set deletedCount h
    have hi : i < members.length := by omega
    rw [removeRanks, List.getElem?_eq_getElem hi]
    simp only []
    rw [ih (i + 1) _ (deletedCount + 1) (by omega)]
    rw [List.drop_eq_getElem_cons hi, List.take_succ_cons]
    simp only [SortedSet.Remove, List.filter_filter, List.any_cons]
    have e : set.members.filter (fun a =>
          (!((members.drop (i + 1)).take todo).any (fun x => x.value == a.value)) &&
            a.value != members[i].value) =
        set.members.filter (fun m =>
          !(members[i].value == m.value ||
            ((members.drop (i + 1)).take todo).any (fun x => x.value == m.value))) := by
      apply List.filter_congr
      intro x _
      by_cases hx : members[i].value = x.value
      · simp [hx]
      · have h1 : (members[i].value == x.value) = false := by simpa using hx
        have h2 : (x.value != members[i].value) = true := by
          simpa using fun e => hx e.symm
        simp [h1, h2]
    rw [e, show deletedCount + 1 + todo = deletedCount + (todo + 1) by omega]

/-- Where a member of a duplicate-free list stands tells whether a slice holds it. -/
theorem mem_slice_iff (l pre post : List MemberParam) (m : MemberParam) (lo cnt : Nat)
    (hnodup : l.Nodup) (hsplit : l = pre ++ m :: post) :
    m ∈ (l.drop lo).take cnt ↔ lo ≤ pre.length ∧ pre.length < lo + cnt := by
  have hat : l[pre.length]? = some m := by
    rw [hsplit, List.getElem?_append_right (le_refl _)]; simp
  have hlt : pre.length < l.length := by rw [hsplit]; simp
  rw [List.mem_iff_getElem?]
  constructor
  · rintro ⟨j, hj⟩
    rw [List.getElem?_take] at hj
    split at hj
    · rename_i hjc
      rw [List.getElem?_drop] at hj
      have := List.getElem?_inj hlt hnodup (hat.trans hj.symm)
      omega
    · cases hj
  · rintro ⟨h1, h2⟩
    refine ⟨pre.length - lo, ?_⟩
    rw [List.getElem?_take, if_pos (by omega), List.getElem?_drop]
    rw [show lo + (pre.length - lo) = pre.length by omega]
    exact hat

/-- The comparator of `handleZREMRANGEBYRANK` is the ascending one of `handleZRANK`. -/
theorem ascending_eq_rankCmp :
    (fun a b : MemberParam => Compare a.score b.score) = rankCmp "zrank" := by
  funext a b
  have h : EqualFold "zrank" "zrevrank" = false := by decide
  simp [rankCmp, h]

/-- After the sort by ascending score, a slice of the sorted members holds the
value of a member exactly when the rank of the member, the number of members with
a strictly smaller score, lies in the range of the slice. -/
theorem slice_has_value_iff (l : List MemberParam) (m : MemberParam) (lo cnt : Nat)
    (hmem : m ∈ l)
    (hnodup : (l.map (fun m => m.value)).Nodup)
    (hdistinct : l.Pairwise (fun a b => a.score ≠ b.score))
    (hnan : ∀ m ∈ l, m.score.isNaN = false) :
    (((SortFunc (fun a b => Compare a.score b.score) l).drop lo).take cnt).any
        (fun x => x.value == m.value) = true ↔
      lo ≤ l.countP (fun x => x.score.lt m.score) ∧
        l.countP (fun x => x.score.lt m.score) < lo + cnt := by
  rw [ascending_eq_rankCmp]
  obtain ⟨pre, post, hsplit, -, -, hasc, -⟩ :=
    rank_position "zrank" l m.value m.score hmem hnodup hdistinct hnan
  have hrank := (hasc (by decide)).1
  have hperm := SortFunc_perm "zrank" l
  have hnd : ((SortFunc (rankCmp "zrank") l).map (fun m => m.value)).Nodup :=
    (hperm.map _).nodup_iff.2 hnodup
  rw [hrank, ← mem_slice_iff _ pre post m lo cnt (List.Nodup.of_map _ hnd) hsplit]
  rw [List.any_eq_true]
  constructor
  · rintro ⟨x, hx, hxv⟩
    have hxl : x ∈ SortFunc (rankCmp "zrank") l :=
      List.mem_of_mem_drop (List.mem_of_mem_take hx)
    have hml : m ∈ SortFunc (rankCmp "zrank") l := hperm.mem_iff.2 hmem
    have : x = m := List.inj_on_of_nodup_map hnd hxl hml (by simpa using hxv)
    rw [← this]; exact hx
  · intro h
    exact ⟨m, h, by simp⟩

/-- Claim C16: on `ZREMRANGEBYRANK key start stop` where key holds a sorted set of
cardinality n (each value once, scores pairwise distinct and not NaN), the lock is
acquired, and the indices, n being added to a negative one, both lie in [0, n-1]:
the handler returns the reply `:<|start - stop| + 1>`, and the set left under the
key holds exactly the members of the set whose rank, the number of members with a
strictly smaller score, does not lie between min(start, stop) and max(start, stop)
inclusive, each with its score. -/
theorem handleZREMRANGEBYRANK_removes_rank_range (ctx : Context) (name key a b : String)
    (server : Server) (set : SortedSet) (start0 stop0 : Int) (start stop : Nat)
    (ha : Atoi a = .ok start0) (hb : Atoi b = .ok stop0)
    (hex : server.KeyExists key = true) (hlock : ctx key = true)
    (hval : server.GetValue key = .zset set)
    (hnodup : (set.members.map (fun m => m.value)).Nodup)
    (hdistinct : set.members.Pairwise (fun a b => a.score ≠ b.score))
    (hnan : ∀ m ∈ set.members, m.score.isNaN = false)
    (hstart : (start : Int) = if start0 < 0 then start0 + set.Cardinality else start0)
    (hstop : (stop : Int) = if stop0 < 0 then stop0 + set.Cardinality else stop0)
    (hsr : start < set.Cardinality) (htr : stop < set.Cardinality) :
    ∃ left : SortedSet,
      handleZREMRANGEBYRANK ctx [name, key, a, b] server =
        Run.returns (Except.ok (":" ++ toString (((start : Int) - stop).natAbs + 1) ++ "\r\n\r\n"),
          Server.KeyUnlock
            (Server.mutated ⟨server.store, server.trace ++ [.KeyLock key]⟩ key left) key) ∧
      ∀ m, m ∈ left.members ↔
        (m ∈ set.members ∧
          ¬ (min start stop ≤ set.members.countP (fun x => x.score.lt m.score) ∧
            set.members.countP (fun x => x.score.lt m.score) ≤ max start stop)) := by
  have hval' : Server.GetValue ⟨server.store, server.trace ++ [.KeyLock key]⟩ key =
      .zset set := hval
  have hlen : (SortFunc (fun a b => Compare a.score b.score) set.members).length =
      set.members.length := List.length_insertionSort _ _
  have hcard : set.Cardinality = set.members.length := rfl
  have hloop := removeRanks_ok (SortFunc (fun a b => Compare a.score b.score) set.members)
    (max start stop - min start stop + 1) (min start stop) set 0
    (by rw [hlen, ← hcard]; omega)
  refine ⟨⟨set.members.filter (fun m =>
    !(((SortFunc (fun a b => Compare a.score b.score) set.members).drop (min start stop)).take
      (max start stop - min start stop + 1)).any (fun x => x.value == m.value))⟩, ?_, ?_⟩
  · have hbounds : ((start : Int) < 0 || (start : Int) > (set.Cardinality : Int) - 1 ||
        (stop : Int) < 0 || (start : Int) > (set.Cardinality : Int) - 1) = false := by
      simp only [Bool.or_eq_false_iff, decide_eq_false_iff_not]
      omega
    have hlo : (if (start : Int) < stop then (start : Int) else stop).toNat = min start stop := by
      split <;> omega
    have htodo : ((if (start : Int) < stop then (stop : Int) else start) -
        (if (start : Int) < stop then (start : Int) else stop) + 1).toNat =
        max start stop - min start stop + 1 := by
      split <;> omega
    have hcount : ((start : Int) - stop).natAbs + 1 = 0 + (max start stop - min start stop + 1) := by
      omega
    unfold handleZREMRANGEBYRANK
    simp only [List.length_cons, List.length_nil, List.getD_cons_succ, List.getD_cons_zero,
      ha, hb, hex, Server.KeyLock, Server.acquire, hlock]
    simp only [bne_self_eq_false, Bool.false_eq_true, if_false, Bool.not_true, if_true]
    rw [hval']
    simp only [← hstart, ← hstop, hbounds, hlo, htodo, SortedSet.GetAll, hloop, hcount,
      Bool.false_eq_true, if_false]
  · intro m
    rw [List.mem_filter]
    constructor
    · rintro ⟨hm, hnot⟩
      refine ⟨hm, fun hin => ?_⟩
      have := (slice_has_value_iff set.members m (min start stop)
        (max start stop - min start stop + 1) hm hnodup hdistinct hnan).2 ⟨hin.1, by omega⟩
      rw [this] at hnot
      exact absurd hnot (by decide)
    · rintro ⟨hm, hout⟩
      refine ⟨hm, ?_⟩
      cases hany : (((SortFunc (fun a b => Compare a.score b.score) set.members).drop
          (min start stop)).take (max start stop - min start stop + 1)).any
          (fun x => x.value == m.value)
      · rfl
      · have := (slice_has_value_iff set.members m (min start stop)
          (max start stop - min start stop + 1) hm hnodup hdistinct hnan).1 hany
        exact absurd ⟨this.1, by omega⟩ hout

/-- Claim C16 at `ZREMRANGEBYRANK k -1 1` where k holds a:1, b:2, c:3: the indices are
2 and 1, the reply is `:2`, and the members of rank 1 and 2 are removed, a being left. -/
theorem handleZREMRANGEBYRANK_removes_rank_range_witness :
    handleZREMRANGEBYRANK granted ["ZREMRANGEBYRANK", "k", "-1", "1"] hostK =
      Run.returns (Except.ok ":2\r\n\r\n",
        ⟨[("k", .zset ⟨[⟨"a", .ofInt 1⟩]⟩)], [.KeyLock "k", .KeyUnlock "k"]⟩) ∧
    ∃ left : SortedSet,
      handleZREMRANGEBYRANK granted ["ZREMRANGEBYRANK", "k", "-1", "1"] hostK =
        Run.returns (Except.ok (":" ++ toString ((((2 : Nat) : Int) - (1 : Nat)).natAbs + 1) ++
            "\r\n\r\n"),
          Server.KeyUnlock
            (Server.mutated ⟨hostK.store, hostK.trace ++ [.KeyLock "k"]⟩ "k" left) "k") ∧
      ∀ m, m ∈ left.members ↔
        (m ∈ [MemberParam.mk "a" (.ofInt 1), ⟨"b", .ofInt 2⟩, ⟨"c", .ofInt 3⟩] ∧
          ¬ (min 2 1 ≤ [MemberParam.mk "a" (.ofInt 1), ⟨"b", .ofInt 2⟩, ⟨"c", .ofInt 3⟩].countP
                (fun x => x.score.lt m.score) ∧
            [MemberParam.mk "a" (.ofInt 1), ⟨"b", .ofInt 2⟩, ⟨"c", .ofInt 3⟩].countP
                (fun x => x.score.lt m.score) ≤ max 2 1)) :=
  ⟨by decide,
    handleZREMRANGEBYRANK_removes_rank_range granted "ZREMRANGEBYRANK" "k" "-1" "1" hostK
      ⟨[⟨"a", .ofInt 1⟩, ⟨"b", .ofInt 2⟩, ⟨"c", .ofInt 3⟩]⟩ (-1) 1 2 1
      (by decide) (by decide) (by decide) (by decide) (by decide) (by decide) (by decide)
      (by decide) (by decide) (by decide) (by decide) (by decide)⟩

/-! ### The lock state after the set-algebra handlers -/

/-- Claim C21 at its witnesses, where k holds a:1, b:2, c:3 and every lock is
acquired. After `ZDIFFSTORE d k` the read lock taken on k is still held: the traced
calls hold one `KeyRLock k` and no `KeyRUnlock k` (the destination d is locked and
unlocked once). After `ZINTER k k` one of the two read locks taken on k is still
held: two `KeyRLock k`, one `KeyRUnlock k`. -/
theorem read_locks_left_held :
    (handleZDIFFSTORE granted ["ZDIFFSTORE", "d", "k"] hostK).2.trace =
      [.KeyRLock "k", .CreateKeyAndLock "d", .SetValue "d", .KeyUnlock "d"] ∧
    readLocks (handleZDIFFSTORE granted ["ZDIFFSTORE", "d", "k"] hostK).2.trace "k" = 1 ∧
    readUnlocks (handleZDIFFSTORE granted ["ZDIFFSTORE", "d", "k"] hostK).2.trace "k" = 0 ∧
    writeLocks (handleZDIFFSTORE granted ["ZDIFFSTORE", "d", "k"] hostK).2.trace "d" = 1 ∧
    writeUnlocks (handleZDIFFSTORE granted ["ZDIFFSTORE", "d", "k"] hostK).2.trace "d" = 1 ∧
    (handleZDIFFSTORE granted ["ZDIFFSTORE", "d", "k"] hostK).1 = Except.ok ":3\r\n\r\n" ∧
    (handleZINTER granted ["ZINTER", "k", "k"] hostK).2.trace =
      [.KeyRLock "k", .KeyRLock "k", .KeyRUnlock "k"] ∧
    readLocks (handleZINTER granted ["ZINTER", "k", "k"] hostK).2.trace "k" = 2 ∧
    readUnlocks (handleZINTER granted ["ZINTER", "k", "k"] hostK).2.trace "k" = 1 ∧
    (handleZINTER granted ["ZINTER", "k", "k"] hostK).1 =
      Except.ok "*3\r\na\r\nb\r\nc\r\n\r\n" := by
  refine ⟨by decide, by decide, by decide, by decide, by decide, by decide, by decide!,
    by decide!, by decide!, by decide!⟩

end sorted_set
